import Mathlib

/-!
# OPC UA Connection Protocol (package `uacp`): the handshake layer of `uacp/conn.go`

A shallow embedding of `Dial`, `Listener.Accept`, `Conn.handshake`, `Conn.srvhandshake`,
`Conn.sendError`, `Conn.recv` and `Conn.send`; further down, of `UInt64.DecodeFromBytes`
(package `datatypes`) and of `Client.Read` (package `opcua`).

* A Go `string` or `[]byte` is a list of bytes, a byte being a natural number below 256.
* A `uint32` is a natural number; arithmetic that can wrap is written with `% 2 ^ 32`.
* The transport (`net.Conn`) is an explicit state: the bytes the peer has sent and that are
  still unread, the log of every `Write` call, the number of `Close` calls and the outcome
  of the upcoming `Write` calls.
* The generic codec `ua.Encode` / `ua.Decode` and the two status codes live outside
  `uacp/conn.go`; the functions take them as a parameter (`Ext`).
* Pointers to `ua.ReadRequest` and `ua.ReadValueID` are addresses into an explicit memory.
-/

namespace Uacp

/-- A Go string or byte slice: a sequence of bytes. -/
abbrev Bytes := List Nat

/-! ## Constants of `uacp/conn.go` -/

def KB : Nat := 1024

def MB : Nat := 1024 * KB

def DefaultReceiveBufSize : Nat := 0xffff

def DefaultSendBufSize : Nat := 0xffff

def DefaultMaxChunkCount : Nat := 512

def DefaultMaxMessageSize : Nat := 2 * MB

/-- The size of the uacp header (`const hdrlen = 8`). -/
def hdrlen : Nat := 8

/-- The string literal "HELF". -/
def HELF : Bytes := [72, 69, 76, 70]

/-- The string literal "ACKF". -/
def ACKF : Bytes := [65, 67, 75, 70]

/-- The string literal "ERRF". -/
def ERRF : Bytes := [69, 82, 82, 70]

/-- The string literal "RHEF". -/
def RHEF : Bytes := [82, 72, 69, 70]

/-- The three-character message-type tag "ACK". -/
def ACK : Bytes := [65, 67, 75]

/-- The three-character message-type tag "ERR". -/
def ERR : Bytes := [69, 82, 82]

/-! ## Message types (fields as `conn.go` uses them) -/

/-- The transport frame header: `MessageType` (3 characters), `ChunkType` (1 byte),
`MessageSize` (uint32). -/
structure Header where
  MessageType : Bytes
  ChunkType : Nat
  MessageSize : Nat
deriving DecidableEq, Repr

structure Acknowledge where
  Version : Nat
  ReceiveBufSize : Nat
  SendBufSize : Nat
  MaxMessageSize : Nat
  MaxChunkCount : Nat
deriving DecidableEq, Repr

structure Hello where
  Version : Nat
  ReceiveBufSize : Nat
  SendBufSize : Nat
  MaxMessageSize : Nat
  MaxChunkCount : Nat
  EndPointURL : Bytes
deriving DecidableEq, Repr

structure ReverseHello where
  ServerURI : Bytes
  EndPointURL : Bytes
deriving DecidableEq, Repr

set_option linter.dupNamespace false in
/-- The Error control message; `sendError` sets only the status code. -/
structure Error where
  Error : Nat
deriving DecidableEq, Repr

/-- The values that `send` is called with (its parameter has type `interface{}`). -/
inductive Msg where
  | hello (h : Hello)
  | ack (a : Acknowledge)
  | error (e : Error)
deriving DecidableEq, Repr

/-- The errors that the functions of `conn.go` return, one constructor per `return` site. -/
inductive Err where
  /-- Returned when `utils.ResolveEndpoint` or `net.DialTCP` failed. -/
  | connect
  /-- The `Accept` of the underlying `net.Listener` failed. -/
  | accept
  /-- Message "invalid msg type: %s" -/
  | invalidMsgType (typ : Bytes)
  /-- Message "encode msg failed: %s" -/
  | encodeMsg
  /-- Message "send packet too large: %d > %d bytes" -/
  | sendTooLarge (size limit : Nat)
  /-- Message "write failed: %s" -/
  | writeFailed
  /-- Message "hdr read faled: %s" -/
  | hdrRead
  /-- Message "hdr decode failed: %s" -/
  | hdrDecode
  /-- Message "packet too large: %d > %d bytes" -/
  | packetTooLarge (size limit : Nat)
  /-- Message "read msg failed: %s" -/
  | readMsg
  /-- Message "got %s want ACK" -/
  | wantACK (msgtyp : Bytes)
  /-- Message "decode ACK failed: %s" -/
  | decodeACK
  /-- Message "invalid version %d" -/
  | invalidVersion (v : Nat)
  /-- The error of `ua.Decode` that `srvhandshake` returns unchanged. -/
  | decodeFailed
  /-- Message "invalid endpoint url %s" -/
  | invalidEndpointURL (url : Bytes)
  /-- Message "invalid handshake packet %q" -/
  | invalidHandshakePacket (msgtyp : Bytes)
deriving DecidableEq, Repr

deriving instance DecidableEq for Except

/-! ## What `conn.go` imports: the generic codec and the status codes -/

/-- The declarations `conn.go` uses and does not define: `ua.Encode`, `ua.Decode` at the
three payload types, and the status codes `BadTCPInternalError`, `BadTCPEndpointURLInvalid`.
`none` stands for a returned error. -/
structure Ext where
  Encode : Msg → Option Bytes
  DecodeHello : Bytes → Option Hello
  DecodeAcknowledge : Bytes → Option Acknowledge
  DecodeReverseHello : Bytes → Option ReverseHello
  BadTCPInternalError : Nat
  BadTCPEndpointURLInvalid : Nat

/-- Little-endian bytes of a uint32. -/
def putUint32 (v : Nat) : Bytes :=
  [v % 256, v / 256 % 256, v / 65536 % 256, v / 16777216 % 256]

/-- Modelled from the spec: `Header.Encode`, which is declared outside `conn.go`. Layout of
§6: bytes 0–2 message-type tag, byte 3 chunk type, bytes 4–7 little-endian uint32 total
size. -/
def Header.Encode (h : Header) : Bytes :=
  h.MessageType ++ [h.ChunkType] ++ putUint32 h.MessageSize

/-- Modelled from the spec: `ua.Decode` at type `Header` (§4.1, §6): three tag bytes, one
chunk-type byte, a little-endian uint32; it fails when fewer than 8 bytes are there. -/
def Header.Decode : Bytes → Option Header
  | m0 :: m1 :: m2 :: ct :: s0 :: s1 :: s2 :: s3 :: _ =>
    some { MessageType := [m0, m1, m2], ChunkType := ct,
           MessageSize := (s0 + 256 * s1 + 65536 * s2 + 16777216 * s3) % 2 ^ 32 }
  | _ => none

/-! ## The transport -/

/-- The state of a `net.Conn`. -/
structure NetConn where
  /-- The bytes the peer has sent and that no `Read` has returned yet. -/
  input : Bytes
  /-- The argument of every `Write` call so far, oldest first. -/
  writes : List Bytes
  /-- The number of `Close` calls so far. -/
  closes : Nat
  /-- Whether the upcoming `Write` calls report an error (`true`), oldest first; a call
  beyond the end of the list succeeds. -/
  wfail : List Bool
deriving DecidableEq, Repr

/-- The method `Close` of the transport. -/
def NetConn.Close (t : NetConn) : NetConn :=
  { t with closes := t.closes + 1 }

/-- The method `Write` of the transport: the call is logged; it succeeds (`true`) on an open
transport whose next outcome is not an error. -/
def NetConn.Write (t : NetConn) (b : Bytes) : NetConn × Bool :=
  ({ t with writes := t.writes ++ [b], wfail := t.wfail.tail },
   decide (t.closes = 0) && !(t.wfail.headD false))

/-- The call `io.ReadFull(t, buf)` with `len(buf) = n`: no `Read` happens for `n = 0`; a
closed transport fails; `n` available bytes are consumed and returned; a shorter stream is
drained and the call fails. -/
def ReadFull (t : NetConn) (n : Nat) : NetConn × Option Bytes :=
  if n = 0 then (t, some [])
  else if t.closes ≠ 0 then (t, none)
  else if n ≤ t.input.length then ({ t with input := t.input.drop n }, some (t.input.take n))
  else ({ t with input := [] }, none)

/-! ## `Conn` -/

structure Conn where
  id : Nat
  c : NetConn
  ack : Acknowledge
deriving DecidableEq, Repr

def Conn.ID (c : Conn) : Nat := c.id

def Conn.ReceiveBufSize (c : Conn) : Nat := c.ack.ReceiveBufSize

def Conn.SendBufSize (c : Conn) : Nat := c.ack.SendBufSize

def Conn.MaxMessageSize (c : Conn) : Nat := c.ack.MaxMessageSize

def Conn.MaxChunkCount (c : Conn) : Nat := c.ack.MaxChunkCount

def Conn.Close (c : Conn) : Conn :=
  { c with c := c.c.Close }

/-- The method `Conn.recv` (conn.go 303–326). The payload length is the uint32 difference
`h.MessageSize - hdrlen`; the allocation of the payload buffer is taken to succeed. -/
def Conn.recv (c : Conn) : Conn × Except Err Bytes :=
  match ReadFull c.c hdrlen with
  | (t1, none) => ({ c with c := t1 }, .error .hdrRead)
  | (t1, some hdr) =>
    match Header.Decode hdr with
    | none => ({ c with c := t1 }, .error .hdrDecode)
    | some h =>
      if h.MessageSize > c.ack.ReceiveBufSize then
        ({ c with c := t1 }, .error (.packetTooLarge h.MessageSize c.ack.ReceiveBufSize))
      else
        match ReadFull t1 ((h.MessageSize + 2 ^ 32 - hdrlen) % 2 ^ 32) with
        | (t2, none) => ({ c with c := t2 }, .error .readMsg)
        | (t2, some b) => ({ c with c := t2 }, .ok (hdr ++ b))

/-- The method `Conn.send` (conn.go 328–360). `Header.Encode` as modelled returns no error,
so the "encode hdr failed" return is not reached. -/
def Conn.send (x : Ext) (c : Conn) (typ : Bytes) (msg : Msg) : Conn × Option Err :=
  if typ.length ≠ 4 then (c, some (.invalidMsgType typ))
  else
    match x.Encode msg with
    | none => (c, some .encodeMsg)
    | some body =>
      let h : Header :=
        { MessageType := typ.take 3, ChunkType := typ.getD 3 0,
          MessageSize := (body.length + 8) % 2 ^ 32 }
      if h.MessageSize > c.ack.SendBufSize then
        (c, some (.sendTooLarge h.MessageSize c.ack.SendBufSize))
      else
        match c.c.Write (h.Encode ++ body) with
        | (t, false) => ({ c with c := t }, some .writeFailed)
        | (t, true) => ({ c with c := t }, none)

/-- The method `Conn.sendError` (conn.go 292–297): the error of `send` is dropped. -/
def Conn.sendError (x : Ext) (c : Conn) (code : Nat) : Conn :=
  (c.send x ERRF (.error { Error := code })).1

/-- The Hello that `handshake` builds (conn.go 196–203). -/
def Conn.hel (c : Conn) (endpoint : Bytes) : Hello :=
  { Version := c.ack.Version, ReceiveBufSize := c.ack.ReceiveBufSize,
    SendBufSize := c.ack.SendBufSize, MaxMessageSize := c.ack.MaxMessageSize,
    MaxChunkCount := c.ack.MaxChunkCount, EndPointURL := endpoint }

/-- The method `Conn.handshake` (conn.go 195–238). -/
def Conn.handshake (x : Ext) (c : Conn) (endpoint : Bytes) : Conn × Option Err :=
  let hel : Hello := c.hel endpoint
  match c.send x HELF (.hello hel) with
  | (c1, some e) => (c1, some e)
  | (c1, none) =>
    match c1.recv with
    | (c2, .error e) => (c2, some e)
    | (c2, .ok b) =>
      let msgtyp := b.take 4
      if msgtyp ≠ ACKF then (c2, some (.wantACK msgtyp))
      else
        match x.DecodeAcknowledge (b.drop hdrlen) with
        | none => (c2, some .decodeACK)
        | some ack =>
          if ack.Version ≠ 0 then (c2, some (.invalidVersion ack.Version))
          else
            let ack1 :=
              if ack.MaxChunkCount = 0 then { ack with MaxChunkCount := DefaultMaxChunkCount }
              else ack
            let ack2 :=
              if ack1.MaxMessageSize = 0 then
                { ack1 with MaxMessageSize := DefaultMaxMessageSize }
              else ack1
            ({ c2 with ack := ack2 }, none)

/-! ## `Dial` and `Listener.Accept` -/

/-- What lies outside the process: the connection id counter `connid` and, for every
endpoint, the transport that `utils.ResolveEndpoint` and `net.DialTCP` yield (`none` when
either fails). -/
structure World where
  connid : Nat
  net : Bytes → Option NetConn

/-- The function `nextid` (conn.go 30–32): `atomic.AddUint32(&connid, 1)`; the returned id and the
updated counter. -/
def nextid (connid : Nat) : Nat × Nat :=
  ((connid + 1) % 2 ^ 32, (connid + 1) % 2 ^ 32)

/-- The counter `connid` after `k` successive calls of `nextid`. -/
def connidAfter (connid : Nat) : Nat → Nat
  | 0 => connid
  | k + 1 => (nextid (connidAfter connid k)).2

/-- The id returned by call number `k + 1` of `nextid` in a history of successive calls that
starts from the initial counter value 0. -/
def callid (k : Nat) : Nat :=
  (nextid (connidAfter 0 k)).1

/-- The outcome of `Dial`: the counter afterwards, the final state of the transport that
was opened (if one was), and the returned pair `(*Conn, error)`. -/
structure DialResult where
  connid : Nat
  tcp : Option NetConn
  ret : Except Err Conn
deriving DecidableEq, Repr

/-- The Conn that `Dial` builds (conn.go 45–54) on the transport `t` when the counter is
`connid`. -/
def dialConn (connid : Nat) (t : NetConn) : Conn :=
  { id := (nextid connid).1, c := t,
    ack := { Version := 0, ReceiveBufSize := DefaultReceiveBufSize,
             SendBufSize := DefaultSendBufSize, MaxChunkCount := 0,
             MaxMessageSize := 0 } }

/-- The function `Dial` (conn.go 34–63). -/
def Dial (x : Ext) (w : World) (endpoint : Bytes) : DialResult :=
  match w.net endpoint with
  | none => { connid := w.connid, tcp := none, ret := .error .connect }
  | some t =>
    let conn : Conn := dialConn w.connid t
    match conn.handshake x endpoint with
    | (c1, some e) => { connid := (nextid w.connid).2, tcp := some c1.Close.c, ret := .error e }
    | (c1, none) => { connid := (nextid w.connid).2, tcp := some c1.c, ret := .ok c1 }

/-- The outcome of `srvhandshake`: the receiver after the call, the counter afterwards, the
outcome of the outbound `Dial` when one was made, and the returned error. -/
structure SrvResult where
  conn : Conn
  connid : Nat
  dialed : Option DialResult
  err : Option Err
deriving DecidableEq, Repr

/-- The method `Conn.srvhandshake` (conn.go 240–290). On the reverse-hello path line 279 declares a new
variable `c` holding the dialed `*Conn`, and line 283 assigns to a field of that new
variable; the receiver keeps its id, its `ack` and the transport closed at line 278. -/
def Conn.srvhandshake (x : Ext) (w : World) (c : Conn) (endpoint : Bytes) : SrvResult :=
  match c.recv with
  | (c1, .error e) =>
    { conn := c1.sendError x x.BadTCPInternalError, connid := w.connid, dialed := none,
      err := some e }
  | (c1, .ok b) =>
    let msgtyp := b.take 4
    let msg := b.drop hdrlen
    if msgtyp = HELF then
      match x.DecodeHello msg with
      | none =>
        { conn := c1.sendError x x.BadTCPInternalError, connid := w.connid, dialed := none,
          err := some .decodeFailed }
      | some hel =>
        if hel.EndPointURL ≠ endpoint then
          { conn := c1.sendError x x.BadTCPEndpointURLInvalid, connid := w.connid,
            dialed := none, err := some (.invalidEndpointURL hel.EndPointURL) }
        else
          match c1.send x ACKF (.ack c1.ack) with
          | (c2, some e) =>
            { conn := c2.sendError x x.BadTCPInternalError, connid := w.connid,
              dialed := none, err := some e }
          | (c2, none) => { conn := c2, connid := w.connid, dialed := none, err := none }
    else if msgtyp = RHEF then
      match x.DecodeReverseHello msg with
      | none =>
        { conn := c1.sendError x x.BadTCPInternalError, connid := w.connid, dialed := none,
          err := some .decodeFailed }
      | some rhe =>
        if rhe.EndPointURL ≠ endpoint then
          { conn := c1.sendError x x.BadTCPEndpointURLInvalid, connid := w.connid,
            dialed := none, err := some (.invalidEndpointURL rhe.EndPointURL) }
        else
          let c2 := c1.Close
          let d := Dial x w rhe.ServerURI
          match d.ret with
          | .error e => { conn := c2, connid := d.connid, dialed := some d, err := some e }
          | .ok _ => { conn := c2, connid := d.connid, dialed := some d, err := none }
    else
      { conn := c1.sendError x x.BadTCPInternalError, connid := w.connid, dialed := none,
        err := some (.invalidHandshakePacket msgtyp) }

/-- The fields of `Listener` that `Accept` reads; the `net.Listener` itself is represented
by the outcome of its `Accept`, an argument of `Listener.Accept`. -/
structure Listener where
  ack : Acknowledge
  endpoint : Bytes
deriving DecidableEq, Repr

/-- The Conn that `Accept` builds (conn.go 113, `&Conn{nextid(), c, l.ack}`) on the accepted
transport `t` when the counter is `connid`. -/
def Listener.conn (l : Listener) (connid : Nat) (t : NetConn) : Conn :=
  { id := (nextid connid).1, c := t, ack := l.ack }

/-- The outcome of `Listener.Accept`: the counter afterwards, the final state of the
accepted inbound transport (if one was accepted), the outcome of the outbound `Dial` when
one was made, and the returned pair `(*Conn, error)`. -/
structure AcceptResult where
  connid : Nat
  inbound : Option NetConn
  dialed : Option DialResult
  ret : Except Err Conn
deriving DecidableEq, Repr

/-- The method `Listener.Accept` (conn.go 108–119); `inb` is what `l.l.Accept()` returns (`none` for
an error). -/
def Listener.Accept (x : Ext) (w : World) (l : Listener) (inb : Option NetConn) :
    AcceptResult :=
  match inb with
  | none => { connid := w.connid, inbound := none, dialed := none, ret := .error .accept }
  | some c =>
    let conn : Conn := l.conn w.connid c
    let r := conn.srvhandshake x { w with connid := (nextid w.connid).2 } l.endpoint
    match r.err with
    | some e =>
      { connid := r.connid, inbound := some r.conn.c.Close, dialed := r.dialed,
        ret := .error e }
    | none =>
      { connid := r.connid, inbound := some r.conn.c, dialed := r.dialed, ret := .ok r.conn }

/-! ## Sequential histories of `Dial` and `Accept` -/

/-- The argument of the `Dial` call of conn.go 279: the ServerURI of a received reverse hello
whose EndpointURL is `endpoint`; `none` on every path of `srvhandshake` that does not reach
line 279. -/
def Conn.dials (x : Ext) (c : Conn) (endpoint : Bytes) : Option Bytes :=
  match c.recv with
  | (_, .error _) => none
  | (_, .ok b) =>
    if b.take 4 = HELF then none
    else if b.take 4 = RHEF then
      match x.DecodeReverseHello (b.drop hdrlen) with
      | none => none
      | some rhe => if rhe.EndPointURL ≠ endpoint then none else some rhe.ServerURI
    else none

/-- The Conn that a call of `Dial` creates: the literal of conn.go 45–54, evaluated once the
transport is open; none when `utils.ResolveEndpoint` or `net.DialTCP` fails. -/
def Dial.created (w : World) (endpoint : Bytes) : List Conn :=
  match w.net endpoint with
  | none => []
  | some t => [dialConn w.connid t]

/-- A call of `Dial` or of `Listener.Accept`; `inb` is what `l.l.Accept()` returns in that
call. -/
inductive Call where
  | dial (endpoint : Bytes)
  | accept (l : Listener) (inb : Option NetConn)

/-- The Conns that a call creates, oldest first. `Accept` creates one (conn.go 113) once
the listener has accepted a transport, and the `Dial` of conn.go 279, when `srvhandshake`
reaches it, creates its own after that. -/
def Call.created (x : Ext) (w : World) : Call → List Conn
  | .dial endpoint => Dial.created w endpoint
  | .accept _ none => []
  | .accept l (some t) =>
    l.conn w.connid t ::
      match (l.conn w.connid t).dials x l.endpoint with
      | none => []
      | some uri => Dial.created { w with connid := (nextid w.connid).2 } uri

/-- The Conns that a call hands on: the one that `Dial` or `Accept` returns, and after it
the one that the `Dial` of conn.go 279 returned to `srvhandshake`. -/
def Call.returned (x : Ext) (w : World) : Call → List Conn
  | .dial endpoint =>
    match (Dial x w endpoint).ret with
    | .ok c => [c]
    | .error _ => []
  | .accept l inb =>
    (match (l.Accept x w inb).ret with
      | .ok c => [c]
      | .error _ => []) ++
    (match (l.Accept x w inb).dialed with
      | some d =>
        match d.ret with
        | .ok c => [c]
        | .error _ => []
      | none => [])

/-- The counter `connid` after a call. -/
def Call.connid (x : Ext) (w : World) : Call → Nat
  | .dial endpoint => (Dial x w endpoint).connid
  | .accept l inb => (l.Accept x w inb).connid

/-- The Conns created in a sequential history of calls, oldest first: every call runs on
the counter that the call before it has left. -/
def created (x : Ext) (w : World) : List Call → List Conn
  | [] => []
  | call :: rest => call.created x w ++ created x { w with connid := call.connid x w } rest

/-- The Conns handed on in a sequential history of calls, oldest first. -/
def returned (x : Ext) (w : World) : List Call → List Conn
  | [] => []
  | call :: rest => call.returned x w ++ returned x { w with connid := call.connid x w } rest

/-! ## A concrete codec, used to run the functions on concrete frames -/

/-- The bytes of a string literal. -/
def str (s : String) : Bytes :=
  s.toList.map Char.toNat

/-- Modelled from the spec: reading a little-endian uint32 (§6); returns it with the
remaining bytes. -/
def getUint32 : Bytes → Option (Nat × Bytes)
  | b0 :: b1 :: b2 :: b3 :: rest =>
    some ((b0 + 256 * b1 + 65536 * b2 + 16777216 * b3) % 2 ^ 32, rest)
  | _ => none

/-- Modelled from the spec: a string on the wire (§6), int32 length followed by the raw
bytes. -/
def putString (s : Bytes) : Bytes :=
  putUint32 s.length ++ s

/-- Modelled from the spec: reading a string (§6), int32 length, -1 for null, followed by
the raw bytes. -/
def getString (b : Bytes) : Option (Bytes × Bytes) :=
  match getUint32 b with
  | none => none
  | some (n, rest) =>
    if n = 0xffffffff then some ([], rest)
    else if 2 ^ 31 ≤ n then none
    else if n ≤ rest.length then some (rest.take n, rest.drop n)
    else none

/-- Modelled from the spec: reading the five little-endian uint32 fields that Hello and
Acknowledge start with (§6). -/
def getAcknowledge (b : Bytes) : Option (Acknowledge × Bytes) :=
  match getUint32 b with
  | none => none
  | some (v, b1) =>
    match getUint32 b1 with
    | none => none
    | some (r, b2) =>
      match getUint32 b2 with
      | none => none
      | some (s, b3) =>
        match getUint32 b3 with
        | none => none
        | some (m, b4) =>
          match getUint32 b4 with
          | none => none
          | some (k, b5) =>
            some ({ Version := v, ReceiveBufSize := r, SendBufSize := s, MaxMessageSize := m,
                    MaxChunkCount := k }, b5)

/-- Modelled from the spec: the Acknowledge payload (§6), five little-endian uint32. -/
def putAcknowledge (a : Acknowledge) : Bytes :=
  putUint32 a.Version ++ putUint32 a.ReceiveBufSize ++ putUint32 a.SendBufSize ++
    putUint32 a.MaxMessageSize ++ putUint32 a.MaxChunkCount

/-- Modelled from the spec: the generic codec `ua.Encode` / `ua.Decode` (package `ua`) on the
payload layouts of §6, and the two status codes (package `uacp`, outside `conn.go`; the
spec names them without a value, the values here are those of OPC UA). Acknowledge: five little-endian uint32. Hello: the same five fields,
then the EndpointURL string. ReverseHello: ServerURI string, EndpointURL string. Error:
little-endian uint32 status code. -/
def wire : Ext where
  Encode := fun m =>
    match m with
    | .hello h =>
      some (putAcknowledge
          { Version := h.Version, ReceiveBufSize := h.ReceiveBufSize,
            SendBufSize := h.SendBufSize, MaxMessageSize := h.MaxMessageSize,
            MaxChunkCount := h.MaxChunkCount } ++ putString h.EndPointURL)
    | .ack a => some (putAcknowledge a)
    | .error e => some (putUint32 e.Error)
  DecodeHello := fun b =>
    match getAcknowledge b with
    | none => none
    | some (a, rest) =>
      match getString rest with
      | none => none
      | some (url, _) =>
        some { Version := a.Version, ReceiveBufSize := a.ReceiveBufSize,
               SendBufSize := a.SendBufSize, MaxMessageSize := a.MaxMessageSize,
               MaxChunkCount := a.MaxChunkCount, EndPointURL := url }
  DecodeAcknowledge := fun b => (getAcknowledge b).map Prod.fst
  DecodeReverseHello := fun b =>
    match getString b with
    | none => none
    | some (uri, rest) =>
      match getString rest with
      | none => none
      | some (url, _) => some { ServerURI := uri, EndPointURL := url }
  BadTCPInternalError := 0x80820000
  BadTCPEndpointURLInvalid := 0x80830000

/-- A complete frame: the header for tag `typ` and the payload `body`, then `body`. -/
def frame (typ : Bytes) (body : Bytes) : Bytes :=
  Header.Encode { MessageType := typ.take 3, ChunkType := typ.getD 3 0,
                  MessageSize := (body.length + 8) % 2 ^ 32 } ++ body

/-- A fresh, open transport on which the peer has sent `input`. -/
def pipe (input : Bytes) : NetConn :=
  { input := input, writes := [], closes := 0, wfail := [] }

/-! ## Concrete runs -/

/-- A connection with `ReceiveBufSize = 50` whose peer has sent a header declaring 100 bytes,
followed by three more bytes. -/
def oversizedConn : Conn :=
  { id := 1,
    c := pipe (Header.Encode { MessageType := ACK, ChunkType := 70, MessageSize := 100 } ++
            [1, 2, 3]),
    ack := { Version := 0, ReceiveBufSize := 50, SendBufSize := 50, MaxMessageSize := 0,
             MaxChunkCount := 0 } }

/-- The endpoint "opc.tcp://x/y". -/
def xy : Bytes := str "opc.tcp://x/y"

/-- A world in which every dial reaches a server that replies with the ACKF frame of `a`. -/
def ackWorld (a : Acknowledge) : World :=
  { connid := 0, net := fun _ => some (pipe (frame ACKF (putAcknowledge a))) }

/-- A server Acknowledge without chunk and message limits. -/
def noLimits : Acknowledge :=
  { Version := 0, ReceiveBufSize := 8192, SendBufSize := 8192, MaxMessageSize := 0,
    MaxChunkCount := 0 }

/-- A server Acknowledge whose `ReceiveBufSize` is 0. -/
def zeroRecvBuf : Acknowledge :=
  { Version := 0, ReceiveBufSize := 0, SendBufSize := 8192, MaxMessageSize := 4096,
    MaxChunkCount := 16 }

/-- A world in which every dial reaches a server that replies with an ERRF frame. -/
def errWorld : World :=
  { connid := 0, net := fun _ => some (pipe (frame ERRF (putUint32 0x80820000))) }

/-- The client Conn of `Dial` in `ackWorld a`, after it has sent its Hello to `xy`. -/
def helloSent (w : World) : Conn :=
  ((dialConn w.connid ((w.net xy).getD (pipe []))).send wire HELF
    (.hello ((dialConn w.connid ((w.net xy).getD (pipe []))).hel xy))).1

/-- The endpoint "opc.tcp://wrong". -/
def wrong : Bytes := str "opc.tcp://wrong"

/-- The endpoint "opc.tcp://redirect-target". -/
def target : Bytes := str "opc.tcp://redirect-target"

/-- The Acknowledge that `Listen` uses when it is given none (conn.go 81–86). -/
def defaultAck : Acknowledge :=
  { Version := 0, ReceiveBufSize := DefaultReceiveBufSize, SendBufSize := DefaultSendBufSize,
    MaxChunkCount := DefaultMaxChunkCount, MaxMessageSize := DefaultMaxMessageSize }

/-- A server Acknowledge with nonzero limits. -/
def limits : Acknowledge :=
  { Version := 0, ReceiveBufSize := 8192, SendBufSize := 8192, MaxMessageSize := 4096,
    MaxChunkCount := 16 }

/-- A listener on "opc.tcp://x/y" with the default Acknowledge. -/
def lxy : Listener := { ack := defaultAck, endpoint := xy }

/-- A listener on "opc.tcp://x/y" whose Acknowledge has `SendBufSize = 8`: no frame with a
payload fits. -/
def tinySend : Listener := { ack := { defaultAck with SendBufSize := 8 }, endpoint := xy }

/-- A listener on "opc.tcp://x/y" whose Acknowledge has `SendBufSize = 16`: an Error frame
(12 bytes) fits, an Acknowledge frame (28 bytes) does not. -/
def smallSend : Listener := { ack := { defaultAck with SendBufSize := 16 }, endpoint := xy }

/-- The HELF frame of a client that proposes the limits of `Dial` for endpoint `url`. -/
def helloFrame (url : Bytes) : Bytes :=
  frame HELF
    (putAcknowledge
        { Version := 0, ReceiveBufSize := DefaultReceiveBufSize,
          SendBufSize := DefaultSendBufSize, MaxMessageSize := 0, MaxChunkCount := 0 } ++
      putString url)

/-- The RHEF frame naming `ServerURI = "opc.tcp://redirect-target"` and
`EndpointURL = "opc.tcp://x/y"`. -/
def reverseFrame : Bytes :=
  frame RHEF (putString target ++ putString xy)

/-- A world in which "opc.tcp://redirect-target" is a server that replies with the ACKF
frame of `limits`, and no other endpoint can be reached. -/
def redirectWorld : World :=
  { connid := 0,
    net := fun u => if u = target then some (pipe (frame ACKF (putAcknowledge limits)))
      else none }

/-- A world in which no endpoint can be reached. -/
def deadWorld : World := { connid := 0, net := fun _ => none }

/-- A history in `redirectWorld`: an `Accept` that receives the reverse hello, a `Dial` of
the redirect target, an `Accept` on which the listener fails, a `Dial` of an endpoint that
cannot be reached, and an `Accept` that receives a Hello for another endpoint. -/
def calls5 : List Call :=
  [.accept lxy (some (pipe reverseFrame)), .dial target, .accept lxy none, .dial wrong,
   .accept lxy (some (pipe (helloFrame wrong)))]

/-- A connection with the limits of `Dial` on a fresh transport. -/
def freshConn : Conn := dialConn 0 (pipe [])

/-- A connection with `ReceiveBufSize = 50` whose peer has sent the frame HELF [1, 2, 3]
followed by two more bytes. -/
def framedConn : Conn :=
  { id := 1, c := pipe (frame HELF [1, 2, 3] ++ [9, 9]),
    ack := { Version := 0, ReceiveBufSize := 50, SendBufSize := 50, MaxMessageSize := 0,
             MaxChunkCount := 0 } }

/-- A connection with `ReceiveBufSize = 0xffff` whose peer has sent a header declaring
`MessageSize = 0`, followed by three more bytes. -/
def undersizedConn : Conn :=
  { id := 1,
    c := pipe (Header.Encode { MessageType := ACK, ChunkType := 70, MessageSize := 0 } ++
            [1, 2, 3]),
    ack := defaultAck }

/-- A server Acknowledge with protocol version 1. -/
def version1 : Acknowledge :=
  { Version := 1, ReceiveBufSize := 8192, SendBufSize := 8192, MaxMessageSize := 4096,
    MaxChunkCount := 16 }

end Uacp

/-! # Package `datatypes` -/

namespace Datatypes

/-- The error type `ErrTooShortToDecode` that package `datatypes` imports from
`github.com/wmnsk/gopcua/errors` (the block that errors.go 110–127 keeps as a comment shows
its shape): the Go type name of the value that was being decoded, and a message. -/
structure ErrTooShortToDecode where
  /-- The field `Type`, as the name that `%T` prints. -/
  TypeName : String
  Message : String
deriving DecidableEq, Repr

/-- The Go library function `binary.LittleEndian.Uint64` on the first 8 bytes of `b`. -/
def Uint64 (b : List Nat) : Nat :=
  b.getD 0 0 + 256 * b.getD 1 0 + 256 ^ 2 * b.getD 2 0 + 256 ^ 3 * b.getD 3 0 +
    256 ^ 4 * b.getD 4 0 + 256 ^ 5 * b.getD 5 0 + 256 ^ 6 * b.getD 6 0 + 256 ^ 7 * b.getD 7 0

/-- The Go conversion `int64(u)` of a uint64 `u`: the two's-complement reading. -/
def int64 (u : Nat) : Int :=
  if u % 2 ^ 64 < 2 ^ 63 then (u % 2 ^ 64 : Nat) else ((u % 2 ^ 64 : Nat) : Int) - 2 ^ 64

/-- The type `UInt64` (uint64.go 14–16); its field `Value` is declared `int64`. -/
structure UInt64 where
  Value : Int
deriving DecidableEq, Repr

/-- The method `UInt64.DecodeFromBytes` (uint64.go 19–26): the receiver afterwards and the
returned error. -/
def UInt64.DecodeFromBytes (i : UInt64) (b : List Nat) :
    UInt64 × Option ErrTooShortToDecode :=
  if b.length < 8 then
    (i, some { TypeName := "*datatypes.UInt64", Message := "should be longer" })
  else ({ Value := int64 (Uint64 (b.take 8)) }, none)

/-- The Go library function `binary.LittleEndian.Uint32` on the first 4 bytes of `b`. -/
def Uint32 (b : List Nat) : Nat :=
  b.getD 0 0 + 256 * b.getD 1 0 + 256 ^ 2 * b.getD 2 0 + 256 ^ 3 * b.getD 3 0

/-- The four bytes that the Go library function `binary.LittleEndian.PutUint32` stores for
the uint32 `v`. -/
def PutUint32 (v : Nat) : List Nat :=
  [v % 256, v / 256 % 256, v / 256 ^ 2 % 256, v / 256 ^ 3 % 256]

/-- The eight bytes that the Go library function `binary.LittleEndian.PutUint64` stores for
the uint64 `v`. -/
def PutUint64 (v : Nat) : List Nat :=
  [v % 256, v / 256 % 256, v / 256 ^ 2 % 256, v / 256 ^ 3 % 256, v / 256 ^ 4 % 256,
   v / 256 ^ 5 % 256, v / 256 ^ 6 % 256, v / 256 ^ 7 % 256]

/-- The Go conversion `int32(u)` of an unsigned integer `u`: the two's-complement reading of
its low 32 bits. -/
def int32 (u : Nat) : Int :=
  if u % 2 ^ 32 < 2 ^ 31 then (u % 2 ^ 32 : Nat) else ((u % 2 ^ 32 : Nat) : Int) - 2 ^ 32

/-- The Go conversion `uint32(v)` of a signed integer `v`. -/
def uint32 (v : Int) : Nat :=
  (v % 2 ^ 32).toNat

/-- The Go conversion `uint64(v)` of a signed integer `v`. -/
def uint64 (v : Int) : Nat :=
  (v % 2 ^ 64).toNat

/-- A buffer with the bytes `w` stored at its positions `lo ..`, as `PutUint32(b[lo:lo+4], v)`
and `PutUint64(b[:8], v)` do; `none` is the panic of a slice expression beyond the buffer.
The buffer `b` is given up to its capacity. -/
def store (b : List Nat) (lo : Nat) (w : List Nat) : Option (List Nat) :=
  if lo + w.length ≤ b.length then some (b.take lo ++ w ++ b.drop (lo + w.length)) else none

/-! ## The scalar wrappers. `DecodeFromBytes` takes the `len(b)` elements of `b`: the slice
expression `b[:w]` is reached only when `w ≤ len(b)`, so the capacity plays no role. -/

/-- The type `Int32` (int32.go 14–16). -/
structure Int32 where
  Value : Int
deriving DecidableEq, Repr

/-- The method `Int32.DecodeFromBytes` (int32.go 19–26). -/
def Int32.DecodeFromBytes (i : Int32) (b : List Nat) : Int32 × Option ErrTooShortToDecode :=
  if b.length < 4 then
    (i, some { TypeName := "*datatypes.Int32", Message := "should be longer" })
  else ({ Value := int32 (Uint32 (b.take 4)) }, none)

/-- The method `Int32.Len` (int32.go 46–48). -/
def Int32.Len (_ : Int32) : Nat := 4

/-- The method `Int32.SerializeTo` (int32.go 39–43): the buffer afterwards and the returned
error; `none` is a panic. -/
def Int32.SerializeTo (i : Int32) (b : List Nat) :
    Option (List Nat × Option ErrTooShortToDecode) :=
  (store b 0 (PutUint32 (uint32 i.Value))).map fun b2 => (b2, none)

/-- The method `Int32.Serialize` (int32.go 29–36). -/
def Int32.Serialize (i : Int32) : Option (List Nat × Option ErrTooShortToDecode) :=
  match i.SerializeTo (List.replicate i.Len 0) with
  | none => none
  | some (_, some err) => some ([], some err)
  | some (b, none) => some (b, none)

/-- The type `UInt32` (uint32.go 18–20). -/
structure UInt32 where
  Value : Nat
deriving DecidableEq, Repr

/-- The method `UInt32.DecodeFromBytes` (uint32.go 23–30). -/
def UInt32.DecodeFromBytes (i : UInt32) (b : List Nat) :
    UInt32 × Option ErrTooShortToDecode :=
  if b.length < 4 then
    (i, some { TypeName := "*datatypes.UInt32", Message := "should be longer" })
  else ({ Value := Uint32 (b.take 4) }, none)

/-- The method `UInt32.Len` (uint32.go 50–52). -/
def UInt32.Len (_ : UInt32) : Nat := 4

/-- The method `UInt32.SerializeTo` (uint32.go 43–47); the conversion `uint32(i.Value)` of a
uint32 keeps its low 32 bits. -/
def UInt32.SerializeTo (i : UInt32) (b : List Nat) :
    Option (List Nat × Option ErrTooShortToDecode) :=
  (store b 0 (PutUint32 (i.Value % 2 ^ 32))).map fun b2 => (b2, none)

/-- The method `UInt32.Serialize` (uint32.go 33–40). -/
def UInt32.Serialize (i : UInt32) : Option (List Nat × Option ErrTooShortToDecode) :=
  match i.SerializeTo (List.replicate i.Len 0) with
  | none => none
  | some (_, some err) => some ([], some err)
  | some (b, none) => some (b, none)

/-- The type `Int64` (int64.go 10–12). -/
structure Int64 where
  Value : Int
deriving DecidableEq, Repr

/-- The method `Int64.DecodeFromBytes` (int64.go 14–21). -/
def Int64.DecodeFromBytes (i : Int64) (b : List Nat) : Int64 × Option ErrTooShortToDecode :=
  if b.length < 8 then
    (i, some { TypeName := "*datatypes.Int64", Message := "should be longer" })
  else ({ Value := int64 (Uint64 (b.take 8)) }, none)

/-- The method `Int64.Len` (int64.go 38–40). -/
def Int64.Len (_ : Int64) : Nat := 8

/-- The method `Int64.SerializeTo` (int64.go 32–36). -/
def Int64.SerializeTo (i : Int64) (b : List Nat) :
    Option (List Nat × Option ErrTooShortToDecode) :=
  (store b 0 (PutUint64 (uint64 i.Value))).map fun b2 => (b2, none)

/-- The method `Int64.Serialize` (int64.go 23–30). -/
def Int64.Serialize (i : Int64) : Option (List Nat × Option ErrTooShortToDecode) :=
  match i.SerializeTo (List.replicate i.Len 0) with
  | none => none
  | some (_, some err) => some ([], some err)
  | some (b, none) => some (b, none)

/-- The method `UInt64.Len` (uint64.go 46–48). -/
def UInt64.Len (_ : UInt64) : Nat := 8

/-- The method `UInt64.SerializeTo` (uint64.go 39–43). -/
def UInt64.SerializeTo (i : UInt64) (b : List Nat) :
    Option (List Nat × Option ErrTooShortToDecode) :=
  (store b 0 (PutUint64 (uint64 i.Value))).map fun b2 => (b2, none)

/-- The method `UInt64.Serialize` (uint64.go 29–36). -/
def UInt64.Serialize (i : UInt64) : Option (List Nat × Option ErrTooShortToDecode) :=
  match i.SerializeTo (List.replicate i.Len 0) with
  | none => none
  | some (_, some err) => some ([], some err)
  | some (b, none) => some (b, none)

/-! ## `Uint32Array` -/

/-- A Go byte slice together with its capacity: `elems` are its `len` elements, `spare` the
bytes of the backing array between `len` and `cap`. -/
structure Slice where
  elems : List Nat
  spare : List Nat
deriving DecidableEq, Repr

/-- The length `len(b)`. -/
def Slice.len (b : Slice) : Nat := b.elems.length

/-- The capacity `cap(b)`. -/
def Slice.cap (b : Slice) : Nat := b.elems.length + b.spare.length

/-- The bytes of the slice expression `b[lo:hi]`; `none` is the run-time panic "slice bounds
out of range", which Go raises unless `lo ≤ hi ≤ cap(b)`. -/
def Slice.slice (b : Slice) (lo hi : Nat) : Option (List Nat) :=
  if lo ≤ hi ∧ hi ≤ b.cap then some (((b.elems ++ b.spare).drop lo).take (hi - lo)) else none

/-- A slice whose capacity is its length, as `make([]byte, n)` returns. -/
def Slice.ofList (l : List Nat) : Slice := { elems := l, spare := [] }

/-- The type `Uint32Array` (uint32.go 60–63). A nil and an empty `Values` are both `[]`. -/
structure Uint32Array where
  ArraySize : Int
  Values : List Nat
deriving DecidableEq, Repr

/-- The function `NewUint32Array` (uint32.go 66–80); `none` is the nil slice. -/
def NewUint32Array (vals : Option (List Nat)) : Uint32Array :=
  match vals with
  | none => { ArraySize := 0, Values := [] }
  | some vs => { ArraySize := int32 vs.length, Values := [] ++ vs }

/-- The loop of `Uint32Array.DecodeFromBytes` (uint32.go 101–104) with `n` iterations still
to run, at `offset`, with the `Values` so far; `none` is a panic. -/
def Uint32Array.DecodeFromBytes.loop (b : Slice) : Nat → Nat → List Nat → Option (List Nat)
  | 0, _, values => some values
  | n + 1, offset, values =>
    match b.slice offset (offset + 4) with
    | none => none
    | some w => Uint32Array.DecodeFromBytes.loop b n (offset + 4) (values ++ [Uint32 w])

/-- The method `Uint32Array.DecodeFromBytes` (uint32.go 94–107): the receiver afterwards and
the returned error; `none` is a panic. -/
def Uint32Array.DecodeFromBytes (u : Uint32Array) (b : Slice) :
    Option (Uint32Array × Option ErrTooShortToDecode) :=
  match b.slice 0 4 with
  | none => none
  | some w =>
    let size := int32 (Uint32 w)
    if size ≤ 0 then some ({ u with ArraySize := size }, none)
    else
      match Uint32Array.DecodeFromBytes.loop b size.toNat 4 u.Values with
      | none => none
      | some values => some ({ ArraySize := size, Values := values }, none)

/-- The function `DecodeUint32Array` (uint32.go 83–90): the returned pointer (`none` for nil)
and error; the outer `none` is a panic. -/
def DecodeUint32Array (b : Slice) :
    Option (Option Uint32Array × Option ErrTooShortToDecode) :=
  match Uint32Array.DecodeFromBytes { ArraySize := 0, Values := [] } b with
  | none => none
  | some (_, some err) => some (none, some err)
  | some (s, none) => some (some s, none)

/-- The method `Uint32Array.Len` (uint32.go 133–135). -/
def Uint32Array.Len (u : Uint32Array) : Nat := 4 + u.Values.length * 4

/-- The loop of `Uint32Array.SerializeTo` (uint32.go 124–127) over the remaining values, at
`offset`, on the buffer `b`; `none` is a panic. -/
def Uint32Array.SerializeTo.loop : List Nat → Nat → List Nat → Option (List Nat)
  | [], _, b => some b
  | v :: vs, offset, b =>
    match store b offset (PutUint32 v) with
    | none => none
    | some b2 => Uint32Array.SerializeTo.loop vs (offset + 4) b2

/-- The method `Uint32Array.SerializeTo` (uint32.go 120–130). -/
def Uint32Array.SerializeTo (u : Uint32Array) (b : List Nat) :
    Option (List Nat × Option ErrTooShortToDecode) :=
  match store b 0 (PutUint32 (uint32 u.ArraySize)) with
  | none => none
  | some b1 =>
    match Uint32Array.SerializeTo.loop u.Values 4 b1 with
    | none => none
    | some b2 => some (b2, none)

/-- The method `Uint32Array.Serialize` (uint32.go 110–117). -/
def Uint32Array.Serialize (u : Uint32Array) : Option (List Nat × Option ErrTooShortToDecode) :=
  match u.SerializeTo (List.replicate u.Len 0) with
  | none => none
  | some (_, some err) => some ([], some err)
  | some (b, none) => some (b, none)

/-- The little-endian uint32 words of a list of values, one after the other. -/
def words : List Nat → List Nat
  | [] => []
  | v :: vs => PutUint32 v ++ words vs

/-- The uint32 word number `k` after the size field, read from the backing array of `b`. -/
def Slice.word (b : Slice) (k : Nat) : Nat :=
  Uint32 (((b.elems ++ b.spare).drop (4 + 4 * k)).take 4)

/-- The `ArraySize` that the first four bytes of the backing array of `b` encode. -/
def Slice.size (b : Slice) : Int :=
  int32 (Uint32 ((b.elems ++ b.spare).take 4))

/-- A slice of length 2 and capacity 8 whose backing array holds the size 1 and the word 5. -/
def shortSlice : Slice := { elems := [1, 0], spare := [0, 0, 5, 0, 0, 0] }

end Datatypes

/-! # Package `errors` -/

namespace Errors

/-- A Go value of type `interface{}` as the package `fmt` sees it: the name that the verb
`%T` prints for its dynamic type, and the text that the verb `%s` prints for it. -/
structure Any where
  TypeName : String
  Text : String
deriving DecidableEq, Repr

/-- A value of type `string`: the verb `%s` prints the string itself. -/
def Any.ofString (v : String) : Any := { TypeName := "string", Text := v }

/-- The Go library function `fmt.Sprintf` on the characters of a format with the verbs `%T`
and `%s`, each with an operand. -/
def sprintf : List Char → List Any → List Char
  | '%' :: 'T' :: rest, a :: args => a.TypeName.toList ++ sprintf rest args
  | '%' :: 's' :: rest, a :: args => a.Text.toList ++ sprintf rest args
  | c :: rest, args => c :: sprintf rest args
  | [], _ => []

/-- The Go library function `fmt.Sprintf`. -/
def Sprintf (format : String) (args : List Any) : String :=
  String.mk (sprintf format.toList args)

/-- The type `ErrDecodeFailure` (errors.go 14–17). -/
structure ErrDecodeFailure where
  «Type» : Any
  Message : String
deriving DecidableEq, Repr

/-- The function `NewErrDecodeFailure` (errors.go 20–25). -/
def NewErrDecodeFailure (decodedType : Any) (msg : String) : ErrDecodeFailure :=
  { «Type» := decodedType, Message := msg }

/-- The method `ErrDecodeFailure.Error` (errors.go 28–30). -/
def ErrDecodeFailure.Error (e : ErrDecodeFailure) : String :=
  Sprintf "failed to decode %T: %s" [e.Type, Any.ofString e.Message]

/-- The type `ErrSerializeFailure` (errors.go 33–36). -/
structure ErrSerializeFailure where
  «Type» : Any
  Message : String
deriving DecidableEq, Repr

/-- The function `NewErrSerializeFailure` (errors.go 39–44). -/
def NewErrSerializeFailure (serializedType : Any) (msg : String) : ErrSerializeFailure :=
  { «Type» := serializedType, Message := msg }

/-- The method `ErrSerializeFailure.Error` (errors.go 47–49). -/
def ErrSerializeFailure.Error (e : ErrSerializeFailure) : String :=
  Sprintf "failed to serialize %T: %s" [e.Type, Any.ofString e.Message]

/-- The type `ErrUnsupported` (errors.go 52–55). -/
structure ErrUnsupported where
  «Type» : Any
  Message : String
deriving DecidableEq, Repr

/-- The function `NewErrUnsupported` (errors.go 58–63). -/
def NewErrUnsupported (unsupportedType : Any) (msg : String) : ErrUnsupported :=
  { «Type» := unsupportedType, Message := msg }

/-- The method `ErrUnsupported.Error` (errors.go 66–68). -/
def ErrUnsupported.Error (e : ErrUnsupported) : String :=
  Sprintf "unsupported %T: %s" [e.Type, Any.ofString e.Message]

/-- The type `ErrUnexpected` (errors.go 71–74). -/
structure ErrUnexpected where
  Value : Any
  Message : String
deriving DecidableEq, Repr

/-- The function `NewErrUnexpected` (errors.go 77–82). -/
def NewErrUnexpected (unexpected : Any) (msg : String) : ErrUnexpected :=
  { Value := unexpected, Message := msg }

/-- The method `ErrUnexpected.Error` (errors.go 85–87). -/
def ErrUnexpected.Error (e : ErrUnexpected) : String :=
  Sprintf "%s is unexpected: %s" [e.Value, Any.ofString e.Message]

/-- The type `ErrNetworkNotAvailable` (errors.go 90–93). -/
structure ErrNetworkNotAvailable where
  «Type» : Any
  Message : String
deriving DecidableEq, Repr

/-- The function `NewErrNetworkNotAvailable` (errors.go 96–101). -/
def NewErrNetworkNotAvailable (network : Any) (msg : String) : ErrNetworkNotAvailable :=
  { «Type» := network, Message := msg }

/-- The method `ErrNetworkNotAvailable.Error` (errors.go 104–106). -/
def ErrNetworkNotAvailable.Error (e : ErrNetworkNotAvailable) : String :=
  Sprintf "network %T is not available: %s" [e.Type, Any.ofString e.Message]

end Errors

/-! # Package `opcua`: `Client.Read` -/

namespace Opcua

/-- The declarations of package `ua` that `Client.Read` uses and `client.go` does not
define: the constant `ua.IntegerIDValue` and the zero value `ua.QualifiedName{}` of the type
`Q` of qualified names. -/
structure UA (Q : Type) where
  IntegerIDValue : Nat
  QualifiedName : Q

/-- The type `ua.ReadValueID`, fields as `client.go` uses them. `NodeID` is the pointer
`*ua.NodeID`, kept as its address; `DataEncoding` is the pointer `*ua.QualifiedName`, `none`
for nil. -/
structure ReadValueID (Q : Type) where
  NodeID : Nat
  AttributeID : Nat
  IndexRange : List Nat
  DataEncoding : Option Q
deriving DecidableEq, Repr

/-- The type `ua.ReadRequest`, fields as `client.go` uses them. `NodesToRead` is a slice of
pointers `[]*ua.ReadValueID`: addresses into the memory of ReadValueIDs. -/
structure ReadRequest where
  MaxAge : Nat
  TimestampsToReturn : Nat
  NodesToRead : List Nat
deriving DecidableEq, Repr

/-- The memory `Client.Read` works on: the ReadRequest objects and the ReadValueID objects,
each addressed by its position. An address beyond the end is a nil pointer. -/
structure Mem (Q : Type) where
  reqs : List ReadRequest
  rvs : List (ReadValueID Q)
deriving DecidableEq, Repr

/-- An assignment to a field through the pointer `a`: `f` updates the object at `a`. -/
def store {Q : Type} (h : List (ReadValueID Q)) (a : Nat)
    (f : ReadValueID Q → ReadValueID Q) : List (ReadValueID Q) :=
  match h[a]? with
  | none => h
  | some v => h.set a (f v)

/-- The loop of `Client.Read` (client.go 80–102) over the entries of `req.NodesToRead` with
the ReadValueID memory `h`: the memory afterwards and the slice `rvs`. `none` is the panic of
dereferencing a nil entry at line 81. -/
def Client.Read.loop {Q : Type} (ua : UA Q) :
    List Nat → List (ReadValueID Q) → Option (List (ReadValueID Q) × List Nat)
  | [], h => some (h, [])
  | rv :: rest, h =>
    match h[rv]? with
    | none => none
    | some v =>
      if v.AttributeID ≠ 0 ∧ v.DataEncoding.isSome = true then
        (Client.Read.loop ua rest h).map fun r => (r.1, rv :: r.2)
      else
        let p := h.length
        let h1 := h ++ [{ NodeID := v.NodeID, AttributeID := v.AttributeID,
                          IndexRange := v.IndexRange, DataEncoding := v.DataEncoding }]
        let h2 :=
          if h1[p]?.map (fun c => c.AttributeID) = some 0 then
            store h1 p fun c => { c with AttributeID := ua.IntegerIDValue }
          else h1
        let h3 :=
          if h2[p]?.map (fun c => c.DataEncoding.isNone) = some true then
            store h2 p fun c => { c with DataEncoding := some ua.QualifiedName }
          else h2
        (Client.Read.loop ua rest h3).map fun r => (r.1, p :: r.2)

/-- The method `Client.Read` (client.go 76–107) up to the call of `c.sechan.Send`: from the
memory `m` and the pointer `req`, the memory afterwards and the pointer `req2` that is
handed to `c.sechan.Send`. `none` is a nil-pointer panic. The response and the error that
`Read` returns come from `c.sechan.Send` (package `uasc`). -/
def Client.Read {Q : Type} (ua : UA Q) (m : Mem Q) (req : Nat) : Option (Mem Q × Nat) :=
  match m.reqs[req]? with
  | none => none
  | some r =>
    match Client.Read.loop ua r.NodesToRead m.rvs with
    | none => none
    | some (h, rvs) =>
      some ({ reqs := m.reqs ++ [{ MaxAge := r.MaxAge,
                                   TimestampsToReturn := r.TimestampsToReturn,
                                   NodesToRead := rvs }],
              rvs := h }, m.reqs.length)

/-- The entry that is to be handed on for the input entry `v`, in the words of the
comments of `Client.Read`: the value attribute if no attribute is specified, the default
encoding if no encoding is specified, everything else as in `v`. -/
def defaulted {Q : Type} (ua : UA Q) (v : ReadValueID Q) : ReadValueID Q :=
  { NodeID := v.NodeID,
    AttributeID := if v.AttributeID ≠ 0 then v.AttributeID else ua.IntegerIDValue,
    IndexRange := v.IndexRange,
    DataEncoding := if v.DataEncoding.isSome = true then v.DataEncoding
      else some ua.QualifiedName }

/-- A concrete type of qualified names: a namespace index and a name. -/
structure QName where
  NamespaceIndex : Nat
  Name : List Nat
deriving DecidableEq, Repr

/-- The parameters of package `ua` for the concrete runs: the Value attribute has id 13. -/
def ua13 : UA QName :=
  { IntegerIDValue := 13, QualifiedName := { NamespaceIndex := 0, Name := [] } }

/-- A memory with one request that names three ReadValueIDs: one complete, one without an
attribute id, one without attribute id and encoding. -/
def mem3 : Mem QName :=
  { reqs := [{ MaxAge := 7, TimestampsToReturn := 2, NodesToRead := [0, 1, 2] }],
    rvs := [{ NodeID := 100, AttributeID := 5, IndexRange := [49],
              DataEncoding := some { NamespaceIndex := 1, Name := [88] } },
            { NodeID := 101, AttributeID := 0, IndexRange := [],
              DataEncoding := some { NamespaceIndex := 1, Name := [88] } },
            { NodeID := 102, AttributeID := 0, IndexRange := [50], DataEncoding := none }] }

end Opcua

namespace Uacp

/-! ## Facts about the transport, `recv` and `send` -/

theorem ReadFull_writes (t : NetConn) (n : Nat) : (ReadFull t n).1.writes = t.writes := by
  unfold ReadFull; split_ifs <;> rfl

theorem ReadFull_closes (t : NetConn) (n : Nat) : (ReadFull t n).1.closes = t.closes := by
  unfold ReadFull; split_ifs <;> rfl

theorem ReadFull_wfail (t : NetConn) (n : Nat) : (ReadFull t n).1.wfail = t.wfail := by
  unfold ReadFull; split_ifs <;> rfl

/-- Reading `n` bytes from an open transport that holds at least `n`. -/
theorem ReadFull_enough (t : NetConn) (a rest : Bytes) (n : Nat) (hopen : t.closes = 0)
    (hin : t.input = a ++ rest) (hlen : a.length = n) :
    ReadFull t n = ({ t with input := rest }, some a) := by
  unfold ReadFull
  by_cases hn : n = 0
  · subst hn
    have ha : a = [] := List.length_eq_zero.mp hlen
    subst ha
    rw [if_pos rfl]
    cases t
    simp_all
  · rw [if_neg hn, if_neg (by simp [hopen]), if_pos (by simp [hin, hlen])]
    simp [hin, ← hlen]

/-- What `recv` leaves untouched: the id, the negotiated limits, the write log, the close
count and the outcomes of the upcoming writes. -/
theorem recv_frame (c : Conn) :
    c.recv.1.id = c.id ∧ c.recv.1.ack = c.ack ∧ c.recv.1.c.writes = c.c.writes ∧
      c.recv.1.c.closes = c.c.closes ∧ c.recv.1.c.wfail = c.c.wfail := by
  have h1 := ReadFull_writes c.c hdrlen
  have h2 := ReadFull_closes c.c hdrlen
  have h3 := ReadFull_wfail c.c hdrlen
  unfold Conn.recv
  rcases hr : ReadFull c.c hdrlen with ⟨t1, _ | hdr⟩
  · rw [hr] at h1 h2 h3; exact ⟨rfl, rfl, h1, h2, h3⟩
  · rw [hr] at h1 h2 h3
    dsimp only
    rcases Header.Decode hdr with _ | h
    · exact ⟨rfl, rfl, h1, h2, h3⟩
    · dsimp only
      split_ifs
      · exact ⟨rfl, rfl, h1, h2, h3⟩
      · generalize (h.MessageSize + 2 ^ 32 - hdrlen) % 2 ^ 32 = n
        have k1 := ReadFull_writes t1 n
        have k2 := ReadFull_closes t1 n
        have k3 := ReadFull_wfail t1 n
        rcases hr2 : ReadFull t1 n with ⟨t2, _ | p⟩
        · rw [hr2] at k1 k2 k3; exact ⟨rfl, rfl, k1.trans h1, k2.trans h2, k3.trans h3⟩
        · rw [hr2] at k1 k2 k3; exact ⟨rfl, rfl, k1.trans h1, k2.trans h2, k3.trans h3⟩

/-- The transport after one `Write` of `b`. -/
theorem Write_state (t : NetConn) (b : Bytes) :
    (t.Write b).1 = { t with writes := t.writes ++ [b], wfail := t.wfail.tail } := rfl

/-- A `send` that is refused before the transport is touched: the message does not encode,
or the frame is larger than `SendBufSize`. -/
theorem send_refused (x : Ext) (c : Conn) (typ : Bytes) (msg : Msg)
    (h : x.Encode msg = none ∨
      ∃ body, x.Encode msg = some body ∧ c.ack.SendBufSize < (body.length + 8) % 2 ^ 32) :
    (c.send x typ msg).1 = c ∧ (c.send x typ msg).2 ≠ none := by
  unfold Conn.send
  split_ifs with h4
  · exact ⟨rfl, by intro k; cases k⟩
  · rcases h with h | ⟨body, hb, hlt⟩
    · rw [h]; exact ⟨rfl, by intro k; cases k⟩
    · rw [hb]
      dsimp only
      rw [if_pos hlt]
      exact ⟨rfl, by intro k; cases k⟩

/-- A `send` whose frame fits `SendBufSize`: one `Write` of header and body; the returned
error is that of the `Write`. -/
theorem send_fits (x : Ext) (c : Conn) (typ : Bytes) (msg : Msg) (body : Bytes)
    (htyp : typ.length = 4) (henc : x.Encode msg = some body)
    (hfit : (body.length + 8) % 2 ^ 32 ≤ c.ack.SendBufSize) :
    c.send x typ msg =
      ({ c with c := { c.c with writes := c.c.writes ++ [frame typ body],
                                wfail := c.c.wfail.tail } },
        if (c.c.Write (frame typ body)).2 = true then none else some .writeFailed) := by
  unfold Conn.send
  rw [if_neg (by rw [htyp]; exact fun k => k rfl), henc]
  dsimp only
  rw [if_neg (Nat.not_lt.mpr hfit)]
  change (match c.c.Write (frame typ body) with
    | (t, false) => ({ c with c := t }, some Err.writeFailed)
    | (t, true) => ({ c with c := t }, none)) = _
  rcases hw : c.c.Write (frame typ body) with ⟨t, ok⟩
  have ht : t = { c.c with writes := c.c.writes ++ [frame typ body],
                           wfail := c.c.wfail.tail } := by
    have := Write_state c.c (frame typ body)
    rw [hw] at this; exact this
  subst ht
  cases ok <;> simp

/-- What `send` leaves untouched, and what it can add to the write log. -/
theorem send_frame (x : Ext) (c : Conn) (typ : Bytes) (msg : Msg) :
    (c.send x typ msg).1.id = c.id ∧ (c.send x typ msg).1.ack = c.ack ∧
      (c.send x typ msg).1.c.closes = c.c.closes ∧
      (c.send x typ msg).1.c.input = c.c.input ∧
      ((c.send x typ msg).1.c.writes = c.c.writes ∨
        ∃ body, x.Encode msg = some body ∧
          (c.send x typ msg).1.c.writes = c.c.writes ++ [frame typ body]) := by
  by_cases h4 : typ.length = 4
  · rcases henc : x.Encode msg with _ | body
    · have := (send_refused x c typ msg (Or.inl henc)).1
      rw [this]; exact ⟨rfl, rfl, rfl, rfl, Or.inl rfl⟩
    · by_cases hfit : (body.length + 8) % 2 ^ 32 ≤ c.ack.SendBufSize
      · rw [send_fits x c typ msg body h4 henc hfit]
        exact ⟨rfl, rfl, rfl, rfl, Or.inr ⟨body, rfl, rfl⟩⟩
      · have := (send_refused x c typ msg (Or.inr ⟨body, henc, Nat.lt_of_not_le hfit⟩)).1
        rw [this]; exact ⟨rfl, rfl, rfl, rfl, Or.inl rfl⟩
  · unfold Conn.send
    rw [if_pos h4]
    exact ⟨rfl, rfl, rfl, rfl, Or.inl rfl⟩

/-- The write log after `sendError`, when the Error frame fits `SendBufSize`. -/
theorem sendError_fits (x : Ext) (c : Conn) (code : Nat) (body : Bytes)
    (henc : x.Encode (.error { Error := code }) = some body)
    (hfit : (body.length + 8) % 2 ^ 32 ≤ c.ack.SendBufSize) :
    c.sendError x code =
      { c with c := { c.c with writes := c.c.writes ++ [frame ERRF body],
                               wfail := c.c.wfail.tail } } := by
  unfold Conn.sendError
  rw [send_fits x c ERRF _ body rfl henc hfit]

/-- What `sendError` leaves untouched, and what it can add to the write log. -/
theorem sendError_frame (x : Ext) (c : Conn) (code : Nat) :
    (c.sendError x code).id = c.id ∧ (c.sendError x code).ack = c.ack ∧
      (c.sendError x code).c.closes = c.c.closes ∧
      (c.sendError x code).c.input = c.c.input ∧
      ((c.sendError x code).c.writes = c.c.writes ∨
        ∃ body, x.Encode (.error { Error := code }) = some body ∧
          (c.sendError x code).c.writes = c.c.writes ++ [frame ERRF body]) :=
  send_frame x c ERRF (.error { Error := code })

/-! ## The branches of `srvhandshake` -/

theorem srv_recv_failed (x : Ext) (w : World) (c c1 : Conn) (endpoint : Bytes) (e : Err)
    (hrecv : c.recv = (c1, .error e)) :
    c.srvhandshake x w endpoint =
      { conn := c1.sendError x x.BadTCPInternalError, connid := w.connid, dialed := none,
        err := some e } := by
  unfold Conn.srvhandshake
  simp only [hrecv]

theorem srv_unknown_tag (x : Ext) (w : World) (c c1 : Conn) (endpoint b : Bytes)
    (hrecv : c.recv = (c1, .ok b)) (h1 : b.take 4 ≠ HELF) (h2 : b.take 4 ≠ RHEF) :
    c.srvhandshake x w endpoint =
      { conn := c1.sendError x x.BadTCPInternalError, connid := w.connid, dialed := none,
        err := some (.invalidHandshakePacket (b.take 4)) } := by
  unfold Conn.srvhandshake
  simp only [hrecv, h1, h2, if_false]

theorem srv_hello_undecodable (x : Ext) (w : World) (c c1 : Conn) (endpoint b : Bytes)
    (hrecv : c.recv = (c1, .ok b)) (htag : b.take 4 = HELF)
    (hdec : x.DecodeHello (b.drop hdrlen) = none) :
    c.srvhandshake x w endpoint =
      { conn := c1.sendError x x.BadTCPInternalError, connid := w.connid, dialed := none,
        err := some .decodeFailed } := by
  unfold Conn.srvhandshake
  simp only [hrecv, htag, hdec, if_true]

theorem srv_hello_mismatch (x : Ext) (w : World) (c c1 : Conn) (endpoint b : Bytes)
    (hel : Hello) (hrecv : c.recv = (c1, .ok b)) (htag : b.take 4 = HELF)
    (hdec : x.DecodeHello (b.drop hdrlen) = some hel) (hne : hel.EndPointURL ≠ endpoint) :
    c.srvhandshake x w endpoint =
      { conn := c1.sendError x x.BadTCPEndpointURLInvalid, connid := w.connid,
        dialed := none, err := some (.invalidEndpointURL hel.EndPointURL) } := by
  unfold Conn.srvhandshake
  simp only [hrecv, htag, hdec, if_true, ne_eq, hne, not_false_eq_true]

theorem srv_hello_match (x : Ext) (w : World) (c c1 : Conn) (endpoint b : Bytes)
    (hel : Hello) (hrecv : c.recv = (c1, .ok b)) (htag : b.take 4 = HELF)
    (hdec : x.DecodeHello (b.drop hdrlen) = some hel) (heq : hel.EndPointURL = endpoint) :
    c.srvhandshake x w endpoint =
      (match c1.send x ACKF (.ack c1.ack) with
       | (c2, some e) =>
         { conn := c2.sendError x x.BadTCPInternalError, connid := w.connid,
           dialed := none, err := some e }
       | (c2, none) => { conn := c2, connid := w.connid, dialed := none, err := none }) := by
  unfold Conn.srvhandshake
  simp only [hrecv, htag, hdec, if_true, ne_eq, heq, not_true_eq_false, if_false]

theorem RHEF_ne_HELF : RHEF ≠ HELF := by decide

theorem srv_reverse_undecodable (x : Ext) (w : World) (c c1 : Conn) (endpoint b : Bytes)
    (hrecv : c.recv = (c1, .ok b)) (htag : b.take 4 = RHEF)
    (hdec : x.DecodeReverseHello (b.drop hdrlen) = none) :
    c.srvhandshake x w endpoint =
      { conn := c1.sendError x x.BadTCPInternalError, connid := w.connid, dialed := none,
        err := some .decodeFailed } := by
  unfold Conn.srvhandshake
  simp only [hrecv, htag, hdec, RHEF_ne_HELF, if_true, if_false]

theorem srv_reverse_mismatch (x : Ext) (w : World) (c c1 : Conn) (endpoint b : Bytes)
    (rhe : ReverseHello) (hrecv : c.recv = (c1, .ok b)) (htag : b.take 4 = RHEF)
    (hdec : x.DecodeReverseHello (b.drop hdrlen) = some rhe)
    (hne : rhe.EndPointURL ≠ endpoint) :
    c.srvhandshake x w endpoint =
      { conn := c1.sendError x x.BadTCPEndpointURLInvalid, connid := w.connid,
        dialed := none, err := some (.invalidEndpointURL rhe.EndPointURL) } := by
  unfold Conn.srvhandshake
  simp only [hrecv, htag, hdec, RHEF_ne_HELF, if_true, if_false, ne_eq, hne,
    not_false_eq_true]

theorem srv_reverse_match (x : Ext) (w : World) (c c1 : Conn) (endpoint b : Bytes)
    (rhe : ReverseHello) (hrecv : c.recv = (c1, .ok b)) (htag : b.take 4 = RHEF)
    (hdec : x.DecodeReverseHello (b.drop hdrlen) = some rhe)
    (heq : rhe.EndPointURL = endpoint) :
    c.srvhandshake x w endpoint =
      { conn := c1.Close, connid := (Dial x w rhe.ServerURI).connid,
        dialed := some (Dial x w rhe.ServerURI),
        err := match (Dial x w rhe.ServerURI).ret with
          | .error e => some e
          | .ok _ => none } := by
  unfold Conn.srvhandshake
  simp only [hrecv, htag, hdec, RHEF_ne_HELF, if_true, if_false, ne_eq, heq,
    not_true_eq_false]
  cases (Dial x w rhe.ServerURI).ret <;> rfl

/-- After `sendError` on a connection whose `SendBufSize` admits the Error frame, the frame
is the last entry of the write log. -/
theorem sendError_appends (x : Ext) (c c2 : Conn) (code : Nat) (body : Bytes)
    (hack : c2.ack = c.ack) (hpre : c.c.writes <+: c2.c.writes)
    (henc : x.Encode (.error { Error := code }) = some body)
    (hfit : (body.length + 8) % 2 ^ 32 ≤ c.ack.SendBufSize) :
    ∃ pre, c.c.writes <+: pre ∧ (c2.sendError x code).c.writes = pre ++ [frame ERRF body] := by
  refine ⟨c2.c.writes, hpre, ?_⟩
  rw [sendError_fits x c2 code body henc (by rw [hack]; exact hfit)]

/-! ## C1 -/

/-- C1: when the 8 header bytes at the head of the stream decode to a `MessageSize` greater
than the connection's `ReceiveBufSize`, `recv` returns an error and the stream is left
exactly after the header: nothing of the payload is read, and nothing else changes. -/
theorem recv_rejects_oversized (c : Conn) (hdr rest : Bytes) (h : Header)
    (hopen : c.c.closes = 0) (hin : c.c.input = hdr ++ rest) (hlen : hdr.length = 8)
    (hdec : Header.Decode hdr = some h) (hbig : c.ack.ReceiveBufSize < h.MessageSize) :
    c.recv = ({ c with c := { c.c with input := rest } },
              .error (.packetTooLarge h.MessageSize c.ack.ReceiveBufSize)) := by
  unfold Conn.recv
  rw [ReadFull_enough c.c hdr rest hdrlen hopen hin hlen]
  simp only [hdec]
  rw [if_pos hbig]

theorem recv_rejects_oversized_witness :
    oversizedConn.recv =
      ({ oversizedConn with c := { oversizedConn.c with input := [1, 2, 3] } },
        .error (.packetTooLarge 100 50)) :=
  recv_rejects_oversized oversizedConn
    (Header.Encode { MessageType := ACK, ChunkType := 70, MessageSize := 100 }) [1, 2, 3]
    { MessageType := ACK, ChunkType := 70, MessageSize := 100 }
    (by decide) (by decide) (by decide) (by decide) (by decide)

/-! ## The client handshake -/

/-- The outcome of `handshake` once a version-0 Acknowledge has arrived in an ACKF frame. -/
theorem handshake_ack (x : Ext) (c c1 c2 : Conn) (endpoint b : Bytes) (ack : Acknowledge)
    (hsend : c.send x HELF (.hello (c.hel endpoint)) = (c1, none))
    (hrecv : c1.recv = (c2, .ok b)) (htag : b.take 4 = ACKF)
    (hdec : x.DecodeAcknowledge (b.drop hdrlen) = some ack) (hver : ack.Version = 0) :
    c.handshake x endpoint =
      ({ c2 with ack :=
          { ack with
            MaxChunkCount :=
              if ack.MaxChunkCount = 0 then DefaultMaxChunkCount else ack.MaxChunkCount,
            MaxMessageSize :=
              if ack.MaxMessageSize = 0 then DefaultMaxMessageSize
              else ack.MaxMessageSize } }, none) := by
  unfold Conn.handshake
  simp only [hsend, hrecv, htag, hdec, hver, ne_eq, not_true_eq_false, if_false]
  cases ack
  simp only at hver
  subst hver
  split_ifs <;> simp_all

/-- The outcome of `handshake` when the reply frame is not tagged ACKF. -/
theorem handshake_not_ack (x : Ext) (c c1 c2 : Conn) (endpoint b : Bytes)
    (hsend : c.send x HELF (.hello (c.hel endpoint)) = (c1, none))
    (hrecv : c1.recv = (c2, .ok b)) (htag : b.take 4 ≠ ACKF) :
    c.handshake x endpoint = (c2, some (.wantACK (b.take 4))) := by
  unfold Conn.handshake
  simp only [hsend, hrecv, ne_eq, htag, not_false_eq_true, if_true]

/-! ## C3 -/

/-- C3: when the reply to the Hello is an ACKF frame that decodes to an Acknowledge with
version 0, the client handshake succeeds; the Conn's `MaxChunkCount` is the server's value
if that is nonzero and `DefaultMaxChunkCount` = 512 if it is 0; its `MaxMessageSize` is the
server's value if nonzero and `DefaultMaxMessageSize` = 2*1024*1024 if it is 0; neither
accessor returns 0. -/
theorem handshake_chunk_and_message_limits (x : Ext) (c c1 c2 : Conn) (endpoint b : Bytes)
    (ack : Acknowledge)
    (hsend : c.send x HELF (.hello (c.hel endpoint)) = (c1, none))
    (hrecv : c1.recv = (c2, .ok b)) (htag : b.take 4 = ACKF)
    (hdec : x.DecodeAcknowledge (b.drop hdrlen) = some ack) (hver : ack.Version = 0) :
    (c.handshake x endpoint).2 = none ∧
      (c.handshake x endpoint).1.MaxChunkCount =
        (if ack.MaxChunkCount = 0 then 512 else ack.MaxChunkCount) ∧
      (c.handshake x endpoint).1.MaxMessageSize =
        (if ack.MaxMessageSize = 0 then 2 * 1024 * 1024 else ack.MaxMessageSize) ∧
      (c.handshake x endpoint).1.MaxChunkCount ≠ 0 ∧
      (c.handshake x endpoint).1.MaxMessageSize ≠ 0 := by
  rw [handshake_ack x c c1 c2 endpoint b ack hsend hrecv htag hdec hver]
  refine ⟨rfl, rfl, rfl, ?_, ?_⟩ <;>
    simp only [Conn.MaxChunkCount, Conn.MaxMessageSize, DefaultMaxChunkCount,
      DefaultMaxMessageSize, MB, KB]
  · split_ifs with h
    · decide
    · exact h
  · split_ifs with h
    · decide
    · exact h

theorem handshake_chunk_and_message_limits_witness :
    ((dialConn 0 (pipe (frame ACKF (putAcknowledge noLimits)))).handshake wire xy).2 = none ∧
      ((dialConn 0 (pipe (frame ACKF (putAcknowledge noLimits)))).handshake wire xy).1.MaxChunkCount
        = 512 ∧
      ((dialConn 0 (pipe (frame ACKF (putAcknowledge noLimits)))).handshake wire
        xy).1.MaxMessageSize = 2097152 :=
  have h := handshake_chunk_and_message_limits wire
    (dialConn 0 (pipe (frame ACKF (putAcknowledge noLimits))))
    (helloSent (ackWorld noLimits)) (helloSent (ackWorld noLimits)).recv.1 xy
    (frame ACKF (putAcknowledge noLimits)) noLimits
    (by decide) rfl (by decide) (by decide) (by decide)
  ⟨h.1, h.2.1, h.2.2.1⟩

/-! ## C4 -/

/-- C4 as stated fails: the server answers with a version-0 Acknowledge whose
`ReceiveBufSize` is 0; the handshake succeeds and the Conn's `ReceiveBufSize` is 0, not
`DefaultReceiveBufSize`. -/
theorem handshake_keeps_zero_receive_buf :
    wire.DecodeAcknowledge (putAcknowledge zeroRecvBuf) = some zeroRecvBuf ∧
      zeroRecvBuf.Version = 0 ∧ zeroRecvBuf.ReceiveBufSize = 0 ∧
      ((dialConn 0 (pipe (frame ACKF (putAcknowledge zeroRecvBuf)))).handshake wire xy).2
        = none ∧
      ((dialConn 0 (pipe (frame ACKF (putAcknowledge zeroRecvBuf)))).handshake wire
        xy).1.ReceiveBufSize = 0 ∧
      ((dialConn 0 (pipe (frame ACKF (putAcknowledge zeroRecvBuf)))).handshake wire
        xy).1.ReceiveBufSize ≠ DefaultReceiveBufSize := by
  decide

/-- C4, amended: when the reply to the Hello is an ACKF frame that decodes to an
Acknowledge with version 0, the client handshake succeeds and the Conn's `ReceiveBufSize`
and `SendBufSize` are the values the server sent, a zero staying zero; `MaxMessageSize` and
`MaxChunkCount` are not 0. -/
theorem handshake_buffer_sizes (x : Ext) (c c1 c2 : Conn) (endpoint b : Bytes)
    (ack : Acknowledge)
    (hsend : c.send x HELF (.hello (c.hel endpoint)) = (c1, none))
    (hrecv : c1.recv = (c2, .ok b)) (htag : b.take 4 = ACKF)
    (hdec : x.DecodeAcknowledge (b.drop hdrlen) = some ack) (hver : ack.Version = 0) :
    (c.handshake x endpoint).2 = none ∧
      (c.handshake x endpoint).1.ReceiveBufSize = ack.ReceiveBufSize ∧
      (c.handshake x endpoint).1.SendBufSize = ack.SendBufSize ∧
      (c.handshake x endpoint).1.MaxMessageSize ≠ 0 ∧
      (c.handshake x endpoint).1.MaxChunkCount ≠ 0 := by
  rw [handshake_ack x c c1 c2 endpoint b ack hsend hrecv htag hdec hver]
  refine ⟨rfl, rfl, rfl, ?_, ?_⟩ <;>
    simp only [Conn.MaxChunkCount, Conn.MaxMessageSize, DefaultMaxChunkCount,
      DefaultMaxMessageSize, MB, KB]
  · split_ifs with h
    · decide
    · exact h
  · split_ifs with h
    · decide
    · exact h

theorem handshake_buffer_sizes_witness :
    ((dialConn 0 (pipe (frame ACKF (putAcknowledge zeroRecvBuf)))).handshake wire xy).2
        = none ∧
      ((dialConn 0 (pipe (frame ACKF (putAcknowledge zeroRecvBuf)))).handshake wire
        xy).1.ReceiveBufSize = 0 ∧
      ((dialConn 0 (pipe (frame ACKF (putAcknowledge zeroRecvBuf)))).handshake wire
        xy).1.SendBufSize = 8192 :=
  have h := handshake_buffer_sizes wire
    (dialConn 0 (pipe (frame ACKF (putAcknowledge zeroRecvBuf))))
    (helloSent (ackWorld zeroRecvBuf)) (helloSent (ackWorld zeroRecvBuf)).recv.1 xy
    (frame ACKF (putAcknowledge zeroRecvBuf)) zeroRecvBuf
    (by decide) rfl (by decide) (by decide) (by decide)
  ⟨h.1, h.2.1, h.2.2.1⟩

/-! ## C5 -/

/-- C5: when the first frame the server sends back does not carry the message-type tag ACK,
`handshake` returns the error "got ... want ACK", `Dial` returns no Conn together with
that error, and the transport `Dial` opened has received exactly one more `Close`. -/
theorem dial_fails_on_non_ack (x : Ext) (w : World) (endpoint : Bytes) (t : NetConn)
    (c1 c2 : Conn) (b : Bytes)
    (hnet : w.net endpoint = some t)
    (hsend : (dialConn w.connid t).send x HELF (.hello ((dialConn w.connid t).hel endpoint))
      = (c1, none))
    (hrecv : c1.recv = (c2, .ok b)) (htag : b.take 3 ≠ ACK) :
    (dialConn w.connid t).handshake x endpoint = (c2, some (.wantACK (b.take 4))) ∧
      (Dial x w endpoint).ret = .error (.wantACK (b.take 4)) ∧
      (Dial x w endpoint).tcp = some c2.c.Close ∧
      c2.c.Close.closes = t.closes + 1 := by
  have h4 : b.take 4 ≠ ACKF := by
    intro h
    apply htag
    have h3 := congrArg (List.take 3) h
    rw [List.take_take] at h3
    exact h3
  have hh := handshake_not_ack x (dialConn w.connid t) c1 c2 endpoint b hsend hrecv h4
  have hs := (send_frame x (dialConn w.connid t) HELF
    (.hello ((dialConn w.connid t).hel endpoint))).2.2.1
  rw [hsend] at hs
  have hr := (recv_frame c1).2.2.2.1
  rw [hrecv] at hr
  refine ⟨hh, ?_, ?_, ?_⟩
  · unfold Dial
    simp only [hnet, hh]
  · unfold Dial
    simp only [hnet, hh]
    rfl
  · show c2.c.closes + 1 = t.closes + 1
    rw [hr, hs]
    rfl

theorem dial_fails_on_non_ack_witness :
    (Dial wire errWorld xy).ret = .error (.wantACK ERRF) ∧
      (Dial wire errWorld xy).tcp = some (helloSent errWorld).recv.1.c.Close ∧
      (helloSent errWorld).recv.1.c.Close.closes = 1 :=
  have h := dial_fails_on_non_ack wire errWorld xy (pipe (frame ERRF (putUint32 0x80820000)))
    (helloSent errWorld) (helloSent errWorld).recv.1 (frame ERRF (putUint32 0x80820000))
    rfl (by decide) rfl (by decide)
  ⟨h.2.1, h.2.2.1, h.2.2.2⟩

/-! ## C2 -/

/-- C2 (what the code does): when the first inbound frame is a reverse hello for the
listener's endpoint and dialing its `ServerURI` succeeds, `Accept` returns the Conn it built
on the inbound transport: same id, the listener's Acknowledge, and the inbound transport,
closed once. The dialed Conn is not what is returned. -/
theorem accept_reverse_hello_returns_inbound (x : Ext) (w : World) (l : Listener)
    (t : NetConn) (c1 dconn : Conn) (b : Bytes) (rhe : ReverseHello)
    (hrecv : (l.conn w.connid t).recv = (c1, .ok b)) (htag : b.take 4 = RHEF)
    (hdec : x.DecodeReverseHello (b.drop hdrlen) = some rhe)
    (heq : rhe.EndPointURL = l.endpoint)
    (hdial : (Dial x { w with connid := (nextid w.connid).2 } rhe.ServerURI).ret
      = .ok dconn) :
    (l.Accept x w (some t)).ret = .ok c1.Close ∧
      c1.Close.id = (nextid w.connid).1 ∧ c1.Close.ack = l.ack ∧
      c1.Close.c.closes = t.closes + 1 ∧
      (l.Accept x w (some t)).dialed
        = some (Dial x { w with connid := (nextid w.connid).2 } rhe.ServerURI) := by
  have hf := recv_frame (l.conn w.connid t)
  rw [hrecv] at hf
  obtain ⟨hid, hack, -, hcl, -⟩ := hf
  have hs := srv_reverse_match x { w with connid := (nextid w.connid).2 }
    (l.conn w.connid t) c1 l.endpoint b rhe hrecv htag hdec heq
  refine ⟨?_, hid, hack, ?_, ?_⟩
  · unfold Listener.Accept
    simp only [hs, hdial]
  · show c1.c.closes + 1 = t.closes + 1
    rw [hcl]; rfl
  · unfold Listener.Accept
    simp only [hs, hdial]

theorem accept_reverse_hello_returns_inbound_witness :
    ((lxy.Accept wire redirectWorld (some (pipe reverseFrame))).ret
        = .ok { id := 1, c := { input := [], writes := [], closes := 1, wfail := [] },
                ack := defaultAck }) ∧
      ((Dial wire { redirectWorld with connid := 1 } target).ret
        = .ok { id := 2,
                c := { input := [], writes := [helloFrame target], closes := 0, wfail := [] },
                ack := limits }) :=
  have h := accept_reverse_hello_returns_inbound wire redirectWorld lxy (pipe reverseFrame)
    (lxy.conn 0 (pipe reverseFrame)).recv.1
    { id := 2, c := { input := [], writes := [helloFrame target], closes := 0, wfail := [] },
      ack := limits }
    reverseFrame { ServerURI := target, EndPointURL := xy }
    (by decide) (by decide) (by decide) (by decide) (by decide)
  ⟨h.1, by decide⟩

/-! ## C6 -/

/-- C6 as stated fails: a listener whose Acknowledge has `SendBufSize = 8` receives a Hello
for "opc.tcp://wrong"; `srvhandshake` returns the endpoint error and writes nothing at all,
the Error frame being larger than `SendBufSize`. -/
theorem endpoint_mismatch_without_error_frame :
    wire.DecodeHello ((helloFrame wrong).drop hdrlen) =
        some { Version := 0, ReceiveBufSize := 65535, SendBufSize := 65535,
               MaxMessageSize := 0, MaxChunkCount := 0, EndPointURL := wrong } ∧
      wrong ≠ tinySend.endpoint ∧
      ((tinySend.conn 0 (pipe (helloFrame wrong))).srvhandshake wire
        { deadWorld with connid := 1 } tinySend.endpoint).err
        = some (.invalidEndpointURL wrong) ∧
      ((tinySend.conn 0 (pipe (helloFrame wrong))).srvhandshake wire
        { deadWorld with connid := 1 } tinySend.endpoint).conn.c.writes = [] := by
  decide

/-- C6, amended: when the first frame is a HELF frame that decodes to a Hello whose
`EndPointURL` differs from the listener's endpoint, `srvhandshake` returns the error
"invalid endpoint url", and `Accept` returns no Conn and that error; at most one frame is
written, never an ACK frame; and when the Error frame for `BadTCPEndpointURLInvalid` fits
the listener's `SendBufSize`, exactly that ERRF frame is written. -/
theorem srvhandshake_endpoint_mismatch (x : Ext) (w : World) (l : Listener) (t : NetConn)
    (c1 : Conn) (b : Bytes) (hel : Hello)
    (hrecv : (l.conn w.connid t).recv = (c1, .ok b)) (htag : b.take 4 = HELF)
    (hdec : x.DecodeHello (b.drop hdrlen) = some hel)
    (hne : hel.EndPointURL ≠ l.endpoint) :
    ((l.conn w.connid t).srvhandshake x { w with connid := (nextid w.connid).2 }
        l.endpoint).err = some (.invalidEndpointURL hel.EndPointURL) ∧
      (l.Accept x w (some t)).ret = .error (.invalidEndpointURL hel.EndPointURL) ∧
      (((l.conn w.connid t).srvhandshake x { w with connid := (nextid w.connid).2 }
          l.endpoint).conn.c.writes = t.writes ∨
        ∃ body, x.Encode (.error { Error := x.BadTCPEndpointURLInvalid }) = some body ∧
          ((l.conn w.connid t).srvhandshake x { w with connid := (nextid w.connid).2 }
            l.endpoint).conn.c.writes = t.writes ++ [frame ERRF body]) ∧
      (∀ body, x.Encode (.error { Error := x.BadTCPEndpointURLInvalid }) = some body →
        (body.length + 8) % 2 ^ 32 ≤ l.ack.SendBufSize →
        ((l.conn w.connid t).srvhandshake x { w with connid := (nextid w.connid).2 }
          l.endpoint).conn.c.writes = t.writes ++ [frame ERRF body]) := by
  have hf := recv_frame (l.conn w.connid t)
  rw [hrecv] at hf
  obtain ⟨-, hack, hwr, -, -⟩ := hf
  have hwr1 : c1.c.writes = t.writes := hwr
  have hack1 : c1.ack = l.ack := hack
  have hs := srv_hello_mismatch x { w with connid := (nextid w.connid).2 }
    (l.conn w.connid t) c1 l.endpoint b hel hrecv htag hdec hne
  rw [hs]
  refine ⟨rfl, ?_, ?_, ?_⟩
  · unfold Listener.Accept
    simp only [hs]
  · have := (sendError_frame x c1 x.BadTCPEndpointURLInvalid).2.2.2.2
    rw [hwr1] at this
    exact this
  · intro body henc hfit
    show (c1.sendError x x.BadTCPEndpointURLInvalid).c.writes = _
    rw [sendError_fits x c1 _ body henc (by rw [hack1]; exact hfit), ← hwr1]

theorem srvhandshake_endpoint_mismatch_witness :
    ((lxy.conn 0 (pipe (helloFrame wrong))).srvhandshake wire
        { deadWorld with connid := (nextid deadWorld.connid).2 } lxy.endpoint).err
        = some (.invalidEndpointURL wrong) ∧
      (lxy.Accept wire deadWorld (some (pipe (helloFrame wrong)))).ret
        = .error (.invalidEndpointURL wrong) ∧
      ((lxy.conn 0 (pipe (helloFrame wrong))).srvhandshake wire
        { deadWorld with connid := (nextid deadWorld.connid).2 } lxy.endpoint).conn.c.writes
        = [] ++ [frame ERRF (putUint32 0x80830000)] :=
  have h := srvhandshake_endpoint_mismatch wire deadWorld lxy (pipe (helloFrame wrong))
    (lxy.conn 0 (pipe (helloFrame wrong))).recv.1 (helloFrame wrong)
    { Version := 0, ReceiveBufSize := 65535, SendBufSize := 65535, MaxMessageSize := 0,
      MaxChunkCount := 0, EndPointURL := wrong }
    (by decide) (by decide) (by decide) (by decide)
  ⟨h.1, h.2.1, h.2.2.2 (putUint32 0x80830000) (by decide) (by decide)⟩

/-! ## C7 -/

/-- C7 as stated fails, in two ways. A listener whose Acknowledge has `SendBufSize = 16`
receives a Hello for its own endpoint: the 28-byte ACKF frame is refused, an ERRF frame is
written instead and `srvhandshake` fails. And on a transport whose first `Write` reports an
error, the ACKF frame is followed by an ERRF frame and `srvhandshake` fails. -/
theorem matching_hello_not_acknowledged :
    wire.DecodeHello ((helloFrame xy).drop hdrlen) =
        some { Version := 0, ReceiveBufSize := 65535, SendBufSize := 65535,
               MaxMessageSize := 0, MaxChunkCount := 0, EndPointURL := xy } ∧
      (smallSend.conn 0 (pipe (helloFrame xy))).srvhandshake wire
          { deadWorld with connid := 1 } smallSend.endpoint
        = { conn := { id := 1,
                      c := { input := [], writes := [frame ERRF (putUint32 0x80820000)],
                             closes := 0, wfail := [] },
                      ack := smallSend.ack },
            connid := 1, dialed := none, err := some (.sendTooLarge 28 16) } ∧
      (lxy.conn 0 { pipe (helloFrame xy) with wfail := [true] }).srvhandshake wire
          { deadWorld with connid := 1 } lxy.endpoint
        = { conn := { id := 1,
                      c := { input := [],
                             writes := [frame ACKF (putAcknowledge defaultAck),
                                        frame ERRF (putUint32 0x80820000)],
                             closes := 0, wfail := [] },
                      ack := defaultAck },
            connid := 1, dialed := none, err := some .writeFailed } := by
  decide

/-- C7, amended: when the first frame is a HELF frame that decodes to a Hello whose
`EndPointURL` equals the listener's endpoint, the ACKF frame of the listener's Acknowledge
`a` fits `a.SendBufSize`, and the open transport accepts the write, then `srvhandshake`
writes exactly one frame, the ACKF frame whose payload is the encoding of `a` (whatever the
Hello proposed), and returns success; `Accept` returns the Conn, whose `ReceiveBufSize`,
`SendBufSize`, `MaxMessageSize` and `MaxChunkCount` are the fields of `a`. -/
theorem srvhandshake_acknowledges (x : Ext) (w : World) (l : Listener) (t : NetConn)
    (c1 : Conn) (b body : Bytes) (hel : Hello)
    (hrecv : (l.conn w.connid t).recv = (c1, .ok b)) (htag : b.take 4 = HELF)
    (hdec : x.DecodeHello (b.drop hdrlen) = some hel)
    (heq : hel.EndPointURL = l.endpoint)
    (henc : x.Encode (.ack l.ack) = some body)
    (hfit : (body.length + 8) % 2 ^ 32 ≤ l.ack.SendBufSize)
    (hopen : t.closes = 0) (hwok : t.wfail.headD false = false) :
    ((l.conn w.connid t).srvhandshake x { w with connid := (nextid w.connid).2 }
        l.endpoint).err = none ∧
      ((l.conn w.connid t).srvhandshake x { w with connid := (nextid w.connid).2 }
        l.endpoint).conn.c.writes = t.writes ++ [frame ACKF body] ∧
      (∃ conn, (l.Accept x w (some t)).ret = .ok conn ∧
        conn.c.writes = t.writes ++ [frame ACKF body] ∧
        conn.ReceiveBufSize = l.ack.ReceiveBufSize ∧ conn.SendBufSize = l.ack.SendBufSize ∧
        conn.MaxMessageSize = l.ack.MaxMessageSize ∧
        conn.MaxChunkCount = l.ack.MaxChunkCount) := by
  have hf := recv_frame (l.conn w.connid t)
  rw [hrecv] at hf
  obtain ⟨-, hack, hwr, hcl, hwf⟩ := hf
  have hwr1 : c1.c.writes = t.writes := hwr
  have hack1 : c1.ack = l.ack := hack
  have hcl1 : c1.c.closes = 0 := by rw [← hopen]; exact hcl
  have hwf0 : c1.c.wfail = t.wfail := hwf
  have hwf1 : c1.c.wfail.headD false = false := by rw [hwf0]; exact hwok
  have hw : (c1.c.Write (frame ACKF body)).2 = true := by
    show (decide (c1.c.closes = 0) && !(c1.c.wfail.headD false)) = true
    rw [hcl1, hwf1]; rfl
  have hsend := send_fits x c1 ACKF (.ack c1.ack) body rfl (by rw [hack1]; exact henc)
    (by rw [hack1]; exact hfit)
  rw [if_pos hw] at hsend
  have hs := srv_hello_match x { w with connid := (nextid w.connid).2 }
    (l.conn w.connid t) c1 l.endpoint b hel hrecv htag hdec heq
  rw [hsend] at hs
  have hs2 : (l.conn w.connid t).srvhandshake x { w with connid := (nextid w.connid).2 }
      l.endpoint =
      { conn :=
          { c1 with
            c := { c1.c with
                   writes := c1.c.writes ++ [frame ACKF body], wfail := c1.c.wfail.tail } },
        connid := (nextid w.connid).2, dialed := none, err := none } := hs
  rw [hs2]
  refine ⟨rfl, by rw [← hwr1], ?_⟩
  refine ⟨{ c1 with
            c := { c1.c with
                   writes := c1.c.writes ++ [frame ACKF body], wfail := c1.c.wfail.tail } },
    ?_, by rw [← hwr1], ?_, ?_, ?_, ?_⟩
  · unfold Listener.Accept
    simp only [hs2]
  · show c1.ack.ReceiveBufSize = _
    rw [hack1]
  · show c1.ack.SendBufSize = _
    rw [hack1]
  · show c1.ack.MaxMessageSize = _
    rw [hack1]
  · show c1.ack.MaxChunkCount = _
    rw [hack1]

theorem srvhandshake_acknowledges_witness :
    ((lxy.conn 0 (pipe (helloFrame xy))).srvhandshake wire
        { deadWorld with connid := (nextid deadWorld.connid).2 } lxy.endpoint).err = none ∧
      ((lxy.conn 0 (pipe (helloFrame xy))).srvhandshake wire
        { deadWorld with connid := (nextid deadWorld.connid).2 } lxy.endpoint).conn.c.writes
        = [] ++ [frame ACKF (putAcknowledge defaultAck)] :=
  have h := srvhandshake_acknowledges wire deadWorld lxy (pipe (helloFrame xy))
    (lxy.conn 0 (pipe (helloFrame xy))).recv.1 (helloFrame xy) (putAcknowledge defaultAck)
    { Version := 0, ReceiveBufSize := 65535, SendBufSize := 65535, MaxMessageSize := 0,
      MaxChunkCount := 0, EndPointURL := xy }
    (by decide) (by decide) (by decide) (by decide) (by decide) (by decide) (by decide)
    (by decide)
  ⟨h.1, h.2.1⟩

/-! ## C8 -/

/-- C8 as stated fails, in two ways. After a reverse hello for the listener's endpoint
whose outbound `Dial` fails, `srvhandshake` returns the dial error with nothing written to
the inbound peer. And a listener whose Acknowledge has `SendBufSize = 8` that receives a
frame tagged ACKF returns an error with nothing written. -/
theorem srvhandshake_fails_without_error_frame :
    (lxy.conn 0 (pipe reverseFrame)).srvhandshake wire { deadWorld with connid := 1 }
          lxy.endpoint
        = { conn := { id := 1, c := { input := [], writes := [], closes := 1, wfail := [] },
                      ack := defaultAck },
            connid := 1,
            dialed := some { connid := 1, tcp := none, ret := .error .connect },
            err := some .connect } ∧
      (tinySend.conn 0 (pipe (frame ACKF (putAcknowledge limits)))).srvhandshake wire
          { deadWorld with connid := 1 } tinySend.endpoint
        = { conn := { id := 1, c := { input := [], writes := [], closes := 0, wfail := [] },
                      ack := tinySend.ack },
            connid := 1, dialed := none, err := some (.invalidHandshakePacket ACKF) } := by
  decide

/-- C8, amended: on a connection whose `SendBufSize` admits the Error frames of both status
codes, every failure of `srvhandshake` other than a failed outbound `Dial` on the
reverse-hello path ends with an ERRF frame written to the inbound transport: the last
`Write` of the call carries that frame. -/
theorem srvhandshake_failure_sends_error (x : Ext) (w : World) (c : Conn)
    (endpoint bi be : Bytes)
    (hi : x.Encode (.error { Error := x.BadTCPInternalError }) = some bi)
    (hfi : (bi.length + 8) % 2 ^ 32 ≤ c.ack.SendBufSize)
    (he : x.Encode (.error { Error := x.BadTCPEndpointURLInvalid }) = some be)
    (hfe : (be.length + 8) % 2 ^ 32 ≤ c.ack.SendBufSize)
    (herr : (c.srvhandshake x w endpoint).err ≠ none)
    (hnodial : (c.srvhandshake x w endpoint).dialed = none) :
    ∃ pre body, (body = bi ∨ body = be) ∧ c.c.writes <+: pre ∧
      (c.srvhandshake x w endpoint).conn.c.writes = pre ++ [frame ERRF body] := by
  have hf := recv_frame c
  rcases hr : c.recv with ⟨c1, e | b⟩
  · rw [hr] at hf
    obtain ⟨-, hack, hwr, -, -⟩ := hf
    have hwr1 : c1.c.writes = c.c.writes := hwr
    rw [srv_recv_failed x w c c1 endpoint e hr]
    obtain ⟨pre, hp, hw⟩ := sendError_appends x c c1 _ bi hack
      (by rw [hwr1]) hi hfi
    exact ⟨pre, bi, Or.inl rfl, hp, hw⟩
  · rw [hr] at hf
    obtain ⟨-, hack, hwr, -, -⟩ := hf
    have hwr1 : c1.c.writes = c.c.writes := hwr
    have hack1 : c1.ack = c.ack := hack
    have hpre : c.c.writes <+: c1.c.writes := by rw [hwr1]
    have internal := sendError_appends x c c1 _ bi hack1 hpre hi hfi
    have invalid := sendError_appends x c c1 _ be hack1 hpre he hfe
    by_cases h1 : b.take 4 = HELF
    · rcases hd : x.DecodeHello (b.drop hdrlen) with _ | hel
      · rw [srv_hello_undecodable x w c c1 endpoint b hr h1 hd]
        obtain ⟨pre, hp, hw⟩ := internal
        exact ⟨pre, bi, Or.inl rfl, hp, hw⟩
      · by_cases hne : hel.EndPointURL = endpoint
        · have hs := srv_hello_match x w c c1 endpoint b hel hr h1 hd hne
          have hsf := send_frame x c1 ACKF (.ack c1.ack)
          rcases hsd : c1.send x ACKF (.ack c1.ack) with ⟨c2, _ | e2⟩
          · rw [hsd] at hs
            rw [hs] at herr
            exact absurd rfl herr
          · rw [hsd] at hs hsf
            obtain ⟨-, hack2, -, -, hw2⟩ := hsf
            have hack3 : c2.ack = c.ack := Eq.trans hack2 hack1
            have hpre2 : c.c.writes <+: c2.c.writes := by
              rcases hw2 with h | ⟨body, -, h⟩
              · have h3 : c2.c.writes = c1.c.writes := h
                rw [h3, hwr1]
              · have h3 : c2.c.writes = c1.c.writes ++ [frame ACKF body] := h
                rw [h3, hwr1]
                exact List.prefix_append _ _
            rw [hs]
            obtain ⟨pre, hp, hw⟩ := sendError_appends x c c2 _ bi hack3 hpre2 hi hfi
            exact ⟨pre, bi, Or.inl rfl, hp, hw⟩
        · rw [srv_hello_mismatch x w c c1 endpoint b hel hr h1 hd hne]
          obtain ⟨pre, hp, hw⟩ := invalid
          exact ⟨pre, be, Or.inr rfl, hp, hw⟩
    · by_cases h2 : b.take 4 = RHEF
      · rcases hd : x.DecodeReverseHello (b.drop hdrlen) with _ | rhe
        · rw [srv_reverse_undecodable x w c c1 endpoint b hr h2 hd]
          obtain ⟨pre, hp, hw⟩ := internal
          exact ⟨pre, bi, Or.inl rfl, hp, hw⟩
        · by_cases hne : rhe.EndPointURL = endpoint
          · rw [srv_reverse_match x w c c1 endpoint b rhe hr h2 hd hne] at hnodial
            cases hnodial
          · rw [srv_reverse_mismatch x w c c1 endpoint b rhe hr h2 hd hne]
            obtain ⟨pre, hp, hw⟩ := invalid
            exact ⟨pre, be, Or.inr rfl, hp, hw⟩
      · rw [srv_unknown_tag x w c c1 endpoint b hr h1 h2]
        obtain ⟨pre, hp, hw⟩ := internal
        exact ⟨pre, bi, Or.inl rfl, hp, hw⟩

theorem srvhandshake_failure_sends_error_witness :
    ∃ pre body, (body = putUint32 0x80820000 ∨ body = putUint32 0x80830000) ∧
      (lxy.conn 0 (pipe [72, 69])).c.writes <+: pre ∧
      ((lxy.conn 0 (pipe [72, 69])).srvhandshake wire deadWorld lxy.endpoint).conn.c.writes
        = pre ++ [frame ERRF body] :=
  srvhandshake_failure_sends_error wire deadWorld (lxy.conn 0 (pipe [72, 69])) lxy.endpoint
    (putUint32 0x80820000) (putUint32 0x80830000) (by decide) (by decide) (by decide)
    (by decide) (by decide) (by decide)

/-! ## C9 -/

/-- C9: on a connection whose `SendBufSize` admits the Error frame for
`BadTCPInternalError`, when the first frame is tagged neither HELF nor RHEF, or is tagged
HELF or RHEF and its payload does not decode, `srvhandshake` writes exactly one frame, the
ERRF frame carrying `BadTCPInternalError`, and returns an error. -/
theorem srvhandshake_internal_error (x : Ext) (w : World) (c c1 : Conn)
    (endpoint b body : Bytes)
    (hrecv : c.recv = (c1, .ok b))
    (henc : x.Encode (.error { Error := x.BadTCPInternalError }) = some body)
    (hfit : (body.length + 8) % 2 ^ 32 ≤ c.ack.SendBufSize)
    (hbad : (b.take 4 ≠ HELF ∧ b.take 4 ≠ RHEF) ∨
      (b.take 4 = HELF ∧ x.DecodeHello (b.drop hdrlen) = none) ∨
      (b.take 4 = RHEF ∧ x.DecodeReverseHello (b.drop hdrlen) = none)) :
    (c.srvhandshake x w endpoint).conn.c.writes = c.c.writes ++ [frame ERRF body] ∧
      (c.srvhandshake x w endpoint).err ≠ none ∧
      (c.srvhandshake x w endpoint).dialed = none := by
  have hf := recv_frame c
  rw [hrecv] at hf
  obtain ⟨-, hack, hwr, -, -⟩ := hf
  have hwr1 : c1.c.writes = c.c.writes := hwr
  have hack1 : c1.ack = c.ack := hack
  have hw : (c1.sendError x x.BadTCPInternalError).c.writes
      = c.c.writes ++ [frame ERRF body] := by
    rw [sendError_fits x c1 _ body henc (by rw [hack1]; exact hfit), ← hwr1]
  rcases hbad with ⟨h1, h2⟩ | ⟨h1, hd⟩ | ⟨h2, hd⟩
  · rw [srv_unknown_tag x w c c1 endpoint b hrecv h1 h2]
    exact ⟨hw, (by intro k; cases k), rfl⟩
  · rw [srv_hello_undecodable x w c c1 endpoint b hrecv h1 hd]
    exact ⟨hw, (by intro k; cases k), rfl⟩
  · rw [srv_reverse_undecodable x w c c1 endpoint b hrecv h2 hd]
    exact ⟨hw, (by intro k; cases k), rfl⟩

theorem srvhandshake_internal_error_witness :
    ((lxy.conn 0 (pipe (frame ACKF (putAcknowledge limits)))).srvhandshake wire deadWorld
        lxy.endpoint).conn.c.writes = [] ++ [frame ERRF (putUint32 0x80820000)] ∧
      ((lxy.conn 0 (pipe (frame ACKF (putAcknowledge limits)))).srvhandshake wire deadWorld
        lxy.endpoint).err ≠ none :=
  have h := srvhandshake_internal_error wire deadWorld
    (lxy.conn 0 (pipe (frame ACKF (putAcknowledge limits))))
    (lxy.conn 0 (pipe (frame ACKF (putAcknowledge limits)))).recv.1 lxy.endpoint
    (frame ACKF (putAcknowledge limits)) (putUint32 0x80820000)
    (by decide) (by decide) (by decide) (Or.inl (by decide))
  ⟨h.1, h.2.1⟩

/-! ## C10 -/

/-- C10 (what the code does): after a reverse hello for the listener's endpoint whose
outbound `Dial` fails, `Accept` returns the dial error and `Close` has been invoked on the
accepted inbound transport twice, once by `srvhandshake` (conn.go 278) and once by `Accept`
(conn.go 115). -/
theorem accept_closes_inbound_twice (x : Ext) (w : World) (l : Listener) (t : NetConn)
    (c1 : Conn) (b : Bytes) (rhe : ReverseHello) (e : Err)
    (hrecv : (l.conn w.connid t).recv = (c1, .ok b)) (htag : b.take 4 = RHEF)
    (hdec : x.DecodeReverseHello (b.drop hdrlen) = some rhe)
    (heq : rhe.EndPointURL = l.endpoint)
    (hdial : (Dial x { w with connid := (nextid w.connid).2 } rhe.ServerURI).ret
      = .error e) :
    (l.Accept x w (some t)).ret = .error e ∧
      (l.Accept x w (some t)).inbound = some c1.c.Close.Close ∧
      c1.c.Close.Close.closes = t.closes + 2 := by
  have hf := recv_frame (l.conn w.connid t)
  rw [hrecv] at hf
  obtain ⟨-, -, -, hcl, -⟩ := hf
  have hcl1 : c1.c.closes = t.closes := hcl
  have hs := srv_reverse_match x { w with connid := (nextid w.connid).2 }
    (l.conn w.connid t) c1 l.endpoint b rhe hrecv htag hdec heq
  refine ⟨?_, ?_, ?_⟩
  · unfold Listener.Accept
    simp only [hs, hdial]
  · unfold Listener.Accept
    simp only [hs, hdial]
    rfl
  · show c1.c.closes + 1 + 1 = t.closes + 2
    rw [hcl1]

theorem accept_closes_inbound_twice_witness :
    (lxy.Accept wire deadWorld (some (pipe reverseFrame))).ret = .error .connect ∧
      (lxy.Accept wire deadWorld (some (pipe reverseFrame))).inbound
        = some { input := [], writes := [], closes := 2, wfail := [] } :=
  have h := accept_closes_inbound_twice wire deadWorld lxy (pipe reverseFrame)
    (lxy.conn 0 (pipe reverseFrame)).recv.1 reverseFrame
    { ServerURI := target, EndPointURL := xy } .connect
    (by decide) (by decide) (by decide) (by decide) (by decide)
  ⟨h.1, h.2.1⟩

/-! ## Sizes on the wire -/

/-- The four bytes of `putUint32 v` read back little-endian give `v`, for a uint32 `v`. -/
theorem uint32_bytes (v : Nat) (hv : v < 2 ^ 32) :
    (v % 256 + 256 * (v / 256 % 256) + 65536 * (v / 65536 % 256) +
      16777216 * (v / 16777216 % 256)) % 2 ^ 32 = v := by
  omega

/-- A decoded header carries a uint32 size. -/
theorem Header.Decode_size_lt (b : Bytes) (h : Header) (hdec : Header.Decode b = some h) :
    h.MessageSize < 2 ^ 32 := by
  unfold Header.Decode at hdec
  split at hdec
  · cases hdec
    exact Nat.mod_lt _ (by decide)
  · cases hdec

/-- Reading `n > 0` bytes from an open transport that holds fewer: the stream is drained
and the read fails. -/
theorem ReadFull_short (t : NetConn) (n : Nat) (hopen : t.closes = 0)
    (hlen : t.input.length < n) : ReadFull t n = ({ t with input := [] }, none) := by
  unfold ReadFull
  rw [if_neg (by omega), if_neg (by simp [hopen]), if_neg (by omega)]

/-! ## C11 -/

/-- C11: for every connection, type tag and message whose encoded body has `n` bytes, if
`n + 8` exceeds the connection's `SendBufSize` then `send` returns an error and leaves the
connection as it was, so that no `Write` reaches the transport. The body is what `ua.Encode`
returns: the payloads of §6 are uint32 fields and strings with an int32 length, so `n + 8`
is a number that the uint32 size field holds (`hsize`). A message that `ua.Encode` refuses
(a string beyond the int32 length has no encoding) is not written either: `send` returns
the error "encode msg failed". -/
theorem send_refuses_oversized (x : Ext) (c : Conn) (typ : Bytes) (msg : Msg) (body : Bytes)
    (henc : x.Encode msg = some body) (hsize : body.length + 8 < 2 ^ 32)
    (hover : c.ack.SendBufSize < body.length + 8) :
    ((c.send x typ msg).2 ≠ none ∧ (c.send x typ msg).1 = c ∧
        (c.send x typ msg).1.c.writes = c.c.writes) ∧
      (typ.length = 4 →
        (c.send x typ msg).2 = some (.sendTooLarge (body.length + 8) c.ack.SendBufSize)) ∧
      (∀ m : Msg, x.Encode m = none →
        (c.send x typ m).2 ≠ none ∧ (c.send x typ m).1 = c ∧
          (c.send x typ m).1.c.writes = c.c.writes) := by
  have hmod : (body.length + 8) % 2 ^ 32 = body.length + 8 := Nat.mod_eq_of_lt hsize
  have h := send_refused x c typ msg (Or.inr ⟨body, henc, by rw [hmod]; exact hover⟩)
  refine ⟨⟨h.2, h.1, by rw [h.1]⟩, ?_, ?_⟩
  · intro h4
    unfold Conn.send
    rw [if_neg (by rw [h4]; exact fun k => k rfl), henc]
    dsimp only
    rw [hmod, if_pos hover]
  · intro m hm
    have h2 := send_refused x c typ m (Or.inl hm)
    exact ⟨h2.2, h2.1, by rw [h2.1]⟩

theorem send_refuses_oversized_witness :
    (tinySend.conn 0 (pipe [])).ack.SendBufSize = 8 ∧
      ((tinySend.conn 0 (pipe [])).send wire ACKF (.ack defaultAck)).2
        = some (.sendTooLarge 28 8) ∧
      ((tinySend.conn 0 (pipe [])).send wire ACKF (.ack defaultAck)).1.c.writes = [] :=
  have h := send_refuses_oversized wire (tinySend.conn 0 (pipe [])) ACKF (.ack defaultAck)
    (putAcknowledge defaultAck) rfl (by decide) (by decide)
  ⟨rfl, h.2.1 rfl, h.1.2.2⟩

/-! ## C12 -/

/-- C12: for a 4-character tag `typ` and a message whose encoded body has `n` bytes with
`n + 8 ≤ SendBufSize` (a uint32), a `send` that returns no error has performed exactly one
`Write`; the written bytes are the first three characters of `typ`, its fourth character,
the little-endian uint32 `n + 8`, then the body; they are `n + 8` bytes, and the size field
they carry is `n + 8`. -/
theorem send_writes_one_frame (x : Ext) (c : Conn) (typ : Bytes) (msg : Msg) (body : Bytes)
    (htyp : typ.length = 4) (henc : x.Encode msg = some body)
    (hlim : c.ack.SendBufSize < 2 ^ 32) (hfit : body.length + 8 ≤ c.ack.SendBufSize)
    (hok : (c.send x typ msg).2 = none) :
    (c.send x typ msg).1.c.writes =
        c.c.writes ++ [typ.take 3 ++ [typ.getD 3 0] ++ putUint32 (body.length + 8) ++ body] ∧
      (typ.take 3 ++ [typ.getD 3 0] ++ putUint32 (body.length + 8) ++ body).length
        = body.length + 8 ∧
      Header.Decode (typ.take 3 ++ [typ.getD 3 0] ++ putUint32 (body.length + 8) ++ body)
        = some { MessageType := typ.take 3, ChunkType := typ.getD 3 0,
                 MessageSize := body.length + 8 } := by
  have hn : body.length + 8 < 2 ^ 32 := Nat.lt_of_le_of_lt hfit hlim
  have hmod : (body.length + 8) % 2 ^ 32 = body.length + 8 := Nat.mod_eq_of_lt hn
  have hs := send_fits x c typ msg body htyp henc (by rw [hmod]; exact hfit)
  refine ⟨?_, ?_, ?_⟩
  · rw [hs]
    show c.c.writes ++ [frame typ body] = _
    unfold frame Header.Encode
    rw [hmod]
  · match typ, htyp with
    | [a, b, d, e], _ => simp [putUint32]
  · match typ, htyp with
    | [a, b, d, e], _ =>
      have hu := uint32_bytes (body.length + 8) hn
      simp only [List.take, List.getD, putUint32, Header.Decode]
      simp only [List.cons_append, List.nil_append, List.get?_cons_succ, List.get?_cons_zero,
        Option.getD_some, Header.Decode]
      rw [hu]

theorem send_writes_one_frame_witness :
    (freshConn.send wire HELF (.hello (freshConn.hel xy))).1.c.writes =
        [] ++ [HELF.take 3 ++ [HELF.getD 3 0] ++ putUint32 (37 + 8) ++
          putAcknowledge freshConn.ack ++ putString xy] ∧
      Header.Decode (frame HELF (putAcknowledge freshConn.ack ++ putString xy))
        = some { MessageType := [72, 69, 76], ChunkType := 70, MessageSize := 45 } :=
  have h := send_writes_one_frame wire freshConn HELF (.hello (freshConn.hel xy))
    (putAcknowledge freshConn.ack ++ putString xy)
    (by decide) (by decide) (by decide) (by decide) (by decide)
  ⟨h.1, h.2.2⟩

/-! ## C13 -/

/-- C13: on an open connection, when the stream starts with 8 header bytes declaring
`MessageSize = m` with `8 ≤ m ≤ ReceiveBufSize`, followed by `m - 8` payload bytes, `recv`
succeeds, returns the header bytes followed by the payload bytes, and leaves the stream
exactly `m` bytes further; when fewer than 8 bytes are there, or fewer than `m - 8` bytes
follow such a header, `recv` returns an error. -/
theorem recv_returns_frame (c : Conn) (hopen : c.c.closes = 0) :
    (∀ (hdr payload rest : Bytes) (h : Header),
        c.c.input = hdr ++ payload ++ rest → hdr.length = 8 → Header.Decode hdr = some h →
        8 ≤ h.MessageSize → h.MessageSize ≤ c.ack.ReceiveBufSize →
        payload.length = h.MessageSize - 8 →
        c.recv = ({ c with c := { c.c with input := rest } }, .ok (hdr ++ payload)) ∧
          (hdr ++ payload).length = h.MessageSize) ∧
      (c.c.input.length < 8 → c.recv.2 = .error .hdrRead) ∧
      (∀ (hdr tail : Bytes) (h : Header),
        c.c.input = hdr ++ tail → hdr.length = 8 → Header.Decode hdr = some h →
        8 ≤ h.MessageSize → h.MessageSize ≤ c.ack.ReceiveBufSize →
        tail.length < h.MessageSize - 8 → c.recv.2 = .error .readMsg) := by
  refine ⟨?_, ?_, ?_⟩
  · intro hdr payload rest h hin hlen hdec h8 hle hpl
    have hlt := Header.Decode_size_lt hdr h hdec
    have hn : (h.MessageSize + 2 ^ 32 - hdrlen) % 2 ^ 32 = h.MessageSize - 8 := by
      unfold hdrlen; omega
    refine ⟨?_, by rw [List.length_append, hlen, hpl]; omega⟩
    unfold Conn.recv
    rw [ReadFull_enough c.c hdr (payload ++ rest) hdrlen hopen
      (by rw [hin, List.append_assoc]) hlen]
    simp only [hdec]
    rw [if_neg (Nat.not_lt.mpr hle), hn,
      ReadFull_enough { c.c with input := payload ++ rest } payload rest
        (h.MessageSize - 8) hopen rfl hpl]
  · intro hshort
    unfold Conn.recv
    rw [ReadFull_short c.c hdrlen hopen hshort]
  · intro hdr tail h hin hlen hdec h8 hle htl
    have hlt := Header.Decode_size_lt hdr h hdec
    have hn : (h.MessageSize + 2 ^ 32 - hdrlen) % 2 ^ 32 = h.MessageSize - 8 := by
      unfold hdrlen; omega
    unfold Conn.recv
    rw [ReadFull_enough c.c hdr tail hdrlen hopen hin hlen]
    simp only [hdec]
    rw [if_neg (Nat.not_lt.mpr hle), hn,
      ReadFull_short { c.c with input := tail } (h.MessageSize - 8) hopen htl]

theorem recv_returns_frame_witness :
    framedConn.recv =
      ({ framedConn with c := { framedConn.c with input := [9, 9] } },
        .ok (Header.Encode { MessageType := [72, 69, 76], ChunkType := 70,
                             MessageSize := 11 } ++ [1, 2, 3])) :=
  ((recv_returns_frame framedConn (by decide)).1
    (Header.Encode { MessageType := [72, 69, 76], ChunkType := 70, MessageSize := 11 })
    [1, 2, 3] [9, 9] { MessageType := [72, 69, 76], ChunkType := 70, MessageSize := 11 }
    (by decide) (by decide) (by decide) (by decide) (by decide) (by decide)).1

/-! ## C14 -/

/-- C14 (what the code does): on an open connection, a header that declares a
`MessageSize = m` below 8 is not rejected: `recv` goes on to read
`(m + 2^32 - 8) mod 2^32 = 2^32 - 8 + m` payload bytes, far more than `ReceiveBufSize - 8`;
with fewer bytes than that in the stream it drains the stream and fails with the
payload-read error. -/
theorem recv_undersized_header_wraps (c : Conn) (hdr rest : Bytes) (h : Header)
    (hopen : c.c.closes = 0) (hin : c.c.input = hdr ++ rest) (hlen : hdr.length = 8)
    (hdec : Header.Decode hdr = some h) (hsmall : h.MessageSize < 8)
    (hle : h.MessageSize ≤ c.ack.ReceiveBufSize) (hlim : c.ack.ReceiveBufSize < 2 ^ 32)
    (hrest : rest.length < 2 ^ 32 - 8) :
    (h.MessageSize + 2 ^ 32 - hdrlen) % 2 ^ 32 = 2 ^ 32 - 8 + h.MessageSize ∧
      c.ack.ReceiveBufSize - 8 < (h.MessageSize + 2 ^ 32 - hdrlen) % 2 ^ 32 ∧
      c.recv = ({ c with c := { c.c with input := [] } }, .error .readMsg) := by
  have hn : (h.MessageSize + 2 ^ 32 - hdrlen) % 2 ^ 32 = 2 ^ 32 - 8 + h.MessageSize := by
    unfold hdrlen; omega
  refine ⟨hn, by rw [hn]; omega, ?_⟩
  unfold Conn.recv
  rw [ReadFull_enough c.c hdr rest hdrlen hopen hin hlen]
  simp only [hdec]
  rw [if_neg (Nat.not_lt.mpr hle), hn,
    ReadFull_short { c.c with input := rest } (2 ^ 32 - 8 + h.MessageSize) hopen
      (by show rest.length < _; omega)]

theorem recv_undersized_header_wraps_witness :
    undersizedConn.recv =
      ({ undersizedConn with c := { undersizedConn.c with input := [] } },
        .error .readMsg) :=
  (recv_undersized_header_wraps undersizedConn
    (Header.Encode { MessageType := ACK, ChunkType := 70, MessageSize := 0 }) [1, 2, 3]
    { MessageType := ACK, ChunkType := 70, MessageSize := 0 }
    (by decide) (by decide) (by decide) (by decide) (by decide) (by decide) (by decide)
    (by decide)).2.2

/-! ## C15 -/

/-- C15: when the reply to the Hello is an ACKF frame that decodes to an Acknowledge whose
`Version` is not 0, `handshake` returns the error "invalid version", whatever the other
fields are, and `Dial` returns no Conn and that error. -/
theorem dial_rejects_version (x : Ext) (w : World) (endpoint : Bytes) (t : NetConn)
    (c1 c2 : Conn) (b : Bytes) (ack : Acknowledge)
    (hnet : w.net endpoint = some t)
    (hsend : (dialConn w.connid t).send x HELF (.hello ((dialConn w.connid t).hel endpoint))
      = (c1, none))
    (hrecv : c1.recv = (c2, .ok b)) (htag : b.take 4 = ACKF)
    (hdec : x.DecodeAcknowledge (b.drop hdrlen) = some ack) (hver : ack.Version ≠ 0) :
    (dialConn w.connid t).handshake x endpoint = (c2, some (.invalidVersion ack.Version)) ∧
      (Dial x w endpoint).ret = .error (.invalidVersion ack.Version) := by
  have hh : (dialConn w.connid t).handshake x endpoint
      = (c2, some (.invalidVersion ack.Version)) := by
    unfold Conn.handshake
    simp only [hsend, hrecv, htag, hdec, ne_eq, not_true_eq_false, if_false, hver,
      not_false_eq_true, if_true]
  refine ⟨hh, ?_⟩
  unfold Dial
  simp only [hnet, hh]

theorem dial_rejects_version_witness :
    (Dial wire (ackWorld version1) xy).ret = .error (.invalidVersion 1) :=
  (dial_rejects_version wire (ackWorld version1) xy
    (pipe (frame ACKF (putAcknowledge version1)))
    (helloSent (ackWorld version1)) (helloSent (ackWorld version1)).recv.1
    (frame ACKF (putAcknowledge version1)) version1
    rfl (by decide) (by decide) (by decide) (by decide) (by decide)).2

/-! ## C16 -/

/-- C16: for a first frame that violates the protocol (unknown tag, undecodable HELF or
RHEF payload, HELF or RHEF for another endpoint), the error `srvhandshake` returns is
determined by the frame and the endpoint alone: two connections that receive the same
frame return the same error, whatever their `SendBufSize` and whatever their transports
answer to the `Write` of the Error frame. -/
theorem srvhandshake_error_ignores_sendError (x : Ext) (w w2 : World)
    (c c1 d d1 : Conn) (endpoint b : Bytes)
    (hc : c.recv = (c1, .ok b)) (hd : d.recv = (d1, .ok b))
    (hviol : (b.take 4 ≠ HELF ∧ b.take 4 ≠ RHEF) ∨
      (b.take 4 = HELF ∧ x.DecodeHello (b.drop hdrlen) = none) ∨
      (b.take 4 = RHEF ∧ x.DecodeReverseHello (b.drop hdrlen) = none) ∨
      (∃ hel, b.take 4 = HELF ∧ x.DecodeHello (b.drop hdrlen) = some hel ∧
        hel.EndPointURL ≠ endpoint) ∨
      (∃ rhe, b.take 4 = RHEF ∧ x.DecodeReverseHello (b.drop hdrlen) = some rhe ∧
        rhe.EndPointURL ≠ endpoint)) :
    (c.srvhandshake x w endpoint).err = (d.srvhandshake x w2 endpoint).err ∧
      (c.srvhandshake x w endpoint).err ≠ none := by
  rcases hviol with ⟨h1, h2⟩ | ⟨h1, hn⟩ | ⟨h2, hn⟩ | ⟨hel, h1, hs, hne⟩ | ⟨rhe, h2, hs, hne⟩
  · rw [srv_unknown_tag x w c c1 endpoint b hc h1 h2,
      srv_unknown_tag x w2 d d1 endpoint b hd h1 h2]
    exact ⟨rfl, fun k => by cases k⟩
  · rw [srv_hello_undecodable x w c c1 endpoint b hc h1 hn,
      srv_hello_undecodable x w2 d d1 endpoint b hd h1 hn]
    exact ⟨rfl, fun k => by cases k⟩
  · rw [srv_reverse_undecodable x w c c1 endpoint b hc h2 hn,
      srv_reverse_undecodable x w2 d d1 endpoint b hd h2 hn]
    exact ⟨rfl, fun k => by cases k⟩
  · rw [srv_hello_mismatch x w c c1 endpoint b hel hc h1 hs hne,
      srv_hello_mismatch x w2 d d1 endpoint b hel hd h1 hs hne]
    exact ⟨rfl, fun k => by cases k⟩
  · rw [srv_reverse_mismatch x w c c1 endpoint b rhe hc h2 hs hne,
      srv_reverse_mismatch x w2 d d1 endpoint b rhe hd h2 hs hne]
    exact ⟨rfl, fun k => by cases k⟩

theorem srvhandshake_error_ignores_sendError_witness :
    ((lxy.conn 0 (pipe (helloFrame wrong))).srvhandshake wire deadWorld xy).err
      = ((tinySend.conn 0 { pipe (helloFrame wrong) with wfail := [true] }).srvhandshake
          wire deadWorld xy).err ∧
      ((lxy.conn 0 (pipe (helloFrame wrong))).srvhandshake wire deadWorld xy).conn.c.writes
        = [frame ERRF (putUint32 0x80830000)] ∧
      ((tinySend.conn 0 { pipe (helloFrame wrong) with wfail := [true] }).srvhandshake
          wire deadWorld xy).conn.c.writes = [] :=
  ⟨(srvhandshake_error_ignores_sendError wire deadWorld deadWorld
      (lxy.conn 0 (pipe (helloFrame wrong))) (lxy.conn 0 (pipe (helloFrame wrong))).recv.1
      (tinySend.conn 0 { pipe (helloFrame wrong) with wfail := [true] })
      (tinySend.conn 0 { pipe (helloFrame wrong) with wfail := [true] }).recv.1
      xy (helloFrame wrong) (by decide) (by decide)
      (Or.inr (Or.inr (Or.inr (Or.inl
        ⟨{ Version := 0, ReceiveBufSize := 65535, SendBufSize := 65535, MaxMessageSize := 0,
           MaxChunkCount := 0, EndPointURL := wrong },
          by decide, by decide, by decide⟩))))).1,
    by decide, by decide⟩

/-! ## C17 -/

/-- The counter after `k` calls of `nextid` that start from 0. -/
theorem connidAfter_zero (k : Nat) : connidAfter 0 k = k % 2 ^ 32 := by
  induction k with
  | zero => rfl
  | succ k ih =>
    show (connidAfter 0 k + 1) % 2 ^ 32 = (k + 1) % 2 ^ 32
    rw [ih]
    omega

/-- The id returned by call number `k + 1`. -/
theorem callid_eq (k : Nat) : callid k = (k + 1) % 2 ^ 32 := by
  show (connidAfter 0 k + 1) % 2 ^ 32 = (k + 1) % 2 ^ 32
  rw [connidAfter_zero]
  omega

/-- The counter after `m + i` calls of `nextid`. -/
theorem connidAfter_add (n m i : Nat) :
    connidAfter (connidAfter n m) i = connidAfter n (m + i) := by
  induction i with
  | zero => rfl
  | succ i ih =>
    show (nextid (connidAfter (connidAfter n m) i)).2 = (nextid (connidAfter n (m + i))).2
    rw [ih]

/-- The outbound `Dial` of `srvhandshake` is made exactly on the path that `Conn.dials`
describes, and the counter moves only there. -/
theorem srv_dials (x : Ext) (w : World) (c : Conn) (endpoint : Bytes) :
    (c.srvhandshake x w endpoint).dialed = (c.dials x endpoint).map (Dial x w) ∧
      (c.srvhandshake x w endpoint).connid =
        (match c.dials x endpoint with
          | none => w.connid
          | some uri => (Dial x w uri).connid) := by
  unfold Conn.srvhandshake Conn.dials
  rcases c.recv with ⟨c1, e | b⟩
  · exact ⟨rfl, rfl⟩
  · dsimp only
    by_cases h1 : b.take 4 = HELF
    · rw [if_pos h1, if_pos h1]
      rcases x.DecodeHello (b.drop hdrlen) with _ | hel
      · exact ⟨rfl, rfl⟩
      · dsimp only
        split_ifs
        · exact ⟨rfl, rfl⟩
        · rcases c1.send x ACKF (.ack c1.ack) with ⟨c2, _ | e⟩ <;> exact ⟨rfl, rfl⟩
    · rw [if_neg h1, if_neg h1]
      by_cases h2 : b.take 4 = RHEF
      · rw [if_pos h2, if_pos h2]
        rcases x.DecodeReverseHello (b.drop hdrlen) with _ | rhe
        · exact ⟨rfl, rfl⟩
        · dsimp only
          split_ifs
          · exact ⟨rfl, rfl⟩
          · rcases (Dial x w rhe.ServerURI).ret with e | c3 <;> exact ⟨rfl, rfl⟩
      · rw [if_neg h2, if_neg h2]
        exact ⟨rfl, rfl⟩

/-- The method `handshake` keeps the id of the Conn. -/
theorem handshake_id (x : Ext) (c : Conn) (endpoint : Bytes) :
    (c.handshake x endpoint).1.id = c.id := by
  have hs := (send_frame x c HELF (.hello (c.hel endpoint))).1
  unfold Conn.handshake
  rcases hsend : c.send x HELF (.hello (c.hel endpoint)) with ⟨c1, _ | e⟩
  · rw [hsend] at hs
    have hs1 : c1.id = c.id := hs
    have hr := (recv_frame c1).1
    simp only [hsend]
    rcases hrecv : c1.recv with ⟨c2, e | b⟩
    · rw [hrecv] at hr
      exact hr.trans hs1
    · rw [hrecv] at hr
      have hr1 : c2.id = c.id := hr.trans hs1
      simp only [hrecv]
      by_cases htag : b.take 4 = ACKF
      · simp only [htag, ne_eq, not_true_eq_false, if_false]
        rcases hdec : x.DecodeAcknowledge (b.drop hdrlen) with _ | ack
        · exact hr1
        · dsimp only
          by_cases hver : ack.Version = 0
          · simp only [hver, ne_eq, not_true_eq_false, if_false]
            exact hr1
          · simp only [ne_eq, hver, not_false_eq_true, if_true]
            exact hr1
      · simp only [ne_eq, htag, not_false_eq_true, if_true]
        exact hr1
  · rw [hsend] at hs
    simp only [hsend]
    exact hs

/-- The method `srvhandshake` keeps the id of its receiver. -/
theorem srvhandshake_id (x : Ext) (w : World) (c : Conn) (endpoint : Bytes) :
    (c.srvhandshake x w endpoint).conn.id = c.id := by
  have hr := (recv_frame c).1
  unfold Conn.srvhandshake
  rcases hrecv : c.recv with ⟨c1, e | b⟩
  · rw [hrecv] at hr
    exact ((sendError_frame x c1 _).1).trans hr
  · rw [hrecv] at hr
    have hr1 : c1.id = c.id := hr
    dsimp only
    by_cases h1 : b.take 4 = HELF
    · rw [if_pos h1]
      rcases x.DecodeHello (b.drop hdrlen) with _ | hel
      · exact ((sendError_frame x c1 _).1).trans hr1
      · dsimp only
        split_ifs
        · exact ((sendError_frame x c1 _).1).trans hr1
        · have hs := (send_frame x c1 ACKF (.ack c1.ack)).1
          rcases hsend : c1.send x ACKF (.ack c1.ack) with ⟨c2, _ | e⟩
          · rw [hsend] at hs
            exact Eq.trans hs hr1
          · rw [hsend] at hs
            exact ((sendError_frame x c2 _).1).trans (Eq.trans hs hr1)
    · rw [if_neg h1]
      by_cases h2 : b.take 4 = RHEF
      · rw [if_pos h2]
        rcases x.DecodeReverseHello (b.drop hdrlen) with _ | rhe
        · exact ((sendError_frame x c1 _).1).trans hr1
        · dsimp only
          split_ifs
          · exact ((sendError_frame x c1 _).1).trans hr1
          · rcases (Dial x w rhe.ServerURI).ret with e | c3 <;> exact hr1
      · rw [if_neg h2]
        exact ((sendError_frame x c1 _).1).trans hr1

/-- The counter after `Dial`: one call of `nextid` for the Conn it creates. -/
theorem Dial_counter (x : Ext) (w : World) (endpoint : Bytes) :
    (Dial x w endpoint).connid = connidAfter w.connid (Dial.created w endpoint).length := by
  unfold Dial Dial.created
  rcases w.net endpoint with _ | t
  · rfl
  · dsimp only
    rcases (dialConn w.connid t).handshake x endpoint with ⟨c1, _ | e⟩ <;> rfl

/-- The ids that `Dial` hands on are the ids it has created. -/
theorem Dial_ids (x : Ext) (w : World) (endpoint : Bytes) :
    (Dial.created w endpoint).map Conn.id
        = (List.range (Dial.created w endpoint).length).map
            (fun i => (nextid (connidAfter w.connid i)).1) ∧
      ((Call.returned x w (.dial endpoint)).map Conn.id).Sublist
        ((Dial.created w endpoint).map Conn.id) := by
  rcases hnet : w.net endpoint with _ | t
  · simp only [Call.returned, Dial, Dial.created, hnet]
    exact ⟨rfl, List.Sublist.refl _⟩
  · have ht := handshake_id x (dialConn w.connid t) endpoint
    rcases hh : (dialConn w.connid t).handshake x endpoint with ⟨c1, _ | e⟩
    · rw [hh] at ht
      have h1 : c1.id = (dialConn w.connid t).id := ht
      simp only [Call.returned, Dial, Dial.created, hnet, hh]
      refine ⟨rfl, ?_⟩
      show List.Sublist [c1.id] [(dialConn w.connid t).id]
      rw [h1]
    · simp only [Call.returned, Dial, Dial.created, hnet, hh]
      exact ⟨rfl, List.nil_sublist _⟩

/-- What `Accept` takes over from `srvhandshake` on an accepted transport: the counter, the
outcome of the outbound `Dial`, and the id of the Conn it returns. -/
theorem Accept_parts (x : Ext) (w : World) (l : Listener) (t : NetConn) :
    (l.Accept x w (some t)).connid
        = ((l.conn w.connid t).srvhandshake x { w with connid := (nextid w.connid).2 }
            l.endpoint).connid ∧
      (l.Accept x w (some t)).dialed
        = ((l.conn w.connid t).srvhandshake x { w with connid := (nextid w.connid).2 }
            l.endpoint).dialed ∧
      (∀ c, (l.Accept x w (some t)).ret = .ok c →
        (l.Accept x w (some t)).ret
          = .ok ((l.conn w.connid t).srvhandshake x { w with connid := (nextid w.connid).2 }
              l.endpoint).conn) := by
  unfold Listener.Accept
  dsimp only
  split
  · exact ⟨rfl, rfl, fun c h => by cases h⟩
  · exact ⟨rfl, rfl, fun c _ => rfl⟩

/-- The counter after a call: one call of `nextid` for every Conn the call creates. -/
theorem Call_counter (x : Ext) (w : World) (call : Call) :
    call.connid x w = connidAfter w.connid (call.created x w).length := by
  cases call with
  | dial endpoint => exact Dial_counter x w endpoint
  | accept l inb =>
    cases inb with
    | none => rfl
    | some t =>
      have hd := (srv_dials x { w with connid := (nextid w.connid).2 } (l.conn w.connid t)
        l.endpoint).2
      show (l.Accept x w (some t)).connid = _
      rw [(Accept_parts x w l t).1, hd]
      rcases hdl : (l.conn w.connid t).dials x l.endpoint with _ | uri
      · simp only [Call.created, hdl]
        rfl
      · simp only [Call.created, hdl, List.length_cons]
        rw [Dial_counter]
        show connidAfter (connidAfter w.connid 1) _ = _
        rw [connidAfter_add, Nat.add_comm]

/-- The ids of the Conns a call creates are the results of its successive `nextid` calls,
and the Conns it hands on carry ids of Conns it has created, in the same order. -/
theorem Call_ids (x : Ext) (w : World) (call : Call) :
    (call.created x w).map Conn.id
        = (List.range (call.created x w).length).map
            (fun i => (nextid (connidAfter w.connid i)).1) ∧
      ((call.returned x w).map Conn.id).Sublist ((call.created x w).map Conn.id) := by
  cases call with
  | dial endpoint => exact Dial_ids x w endpoint
  | accept l inb =>
    cases inb with
    | none => exact ⟨rfl, List.Sublist.refl _⟩
    | some t =>
      have hd := (srv_dials x { w with connid := (nextid w.connid).2 } (l.conn w.connid t)
        l.endpoint).1
      have hid := srvhandshake_id x { w with connid := (nextid w.connid).2 }
        (l.conn w.connid t) l.endpoint
      have hp := Accept_parts x w l t
      have hdial := fun uri => Dial_ids x { w with connid := (nextid w.connid).2 } uri
      have hfirst : ((match (l.Accept x w (some t)).ret with
            | .ok c => [c]
            | .error _ => [] : List Conn).map Conn.id).Sublist [(l.conn w.connid t).id] := by
        rcases hret : (l.Accept x w (some t)).ret with e | c
        · exact List.nil_sublist _
        · have h2 := hp.2.2 c hret
          rw [hret] at h2
          injection h2 with h3
          show List.Sublist [c.id] [(l.conn w.connid t).id]
          rw [h3, hid]
      rcases hdl : (l.conn w.connid t).dials x l.endpoint with _ | uri
      · have hc : Call.created x w (.accept l (some t)) = [l.conn w.connid t] := by
          simp only [Call.created, hdl]
        have hn : (l.Accept x w (some t)).dialed = none := by
          rw [hp.2.1, hd, hdl]
          rfl
        have hr : Call.returned x w (.accept l (some t))
            = (match (l.Accept x w (some t)).ret with
                | .ok c => [c]
                | .error _ => [] : List Conn) := by
          simp only [Call.returned, hn, List.append_nil]
        rw [hc, hr]
        exact ⟨rfl, hfirst⟩
      · have hs : (l.Accept x w (some t)).dialed
            = some (Dial x { w with connid := (nextid w.connid).2 } uri) := by
          rw [hp.2.1, hd, hdl]
          rfl
        have hr : Call.returned x w (.accept l (some t))
            = (match (l.Accept x w (some t)).ret with
                | .ok c => [c]
                | .error _ => [] : List Conn)
              ++ Call.returned x { w with connid := (nextid w.connid).2 } (.dial uri) := by
          simp only [Call.returned, hs]
        have hc : Call.created x w (.accept l (some t))
            = [l.conn w.connid t] ++ Dial.created { w with connid := (nextid w.connid).2 } uri := by
          simp only [Call.created, hdl]
          rfl
        constructor
        · rw [hc]
          unfold Dial.created
          rcases hnet : w.net uri with _ | t2
          · rfl
          · rfl
        · rw [hc, hr, List.map_append, List.map_append]
          exact List.Sublist.append hfirst (hdial uri).2

/-- In a sequential history the ids of the Conns created are the results of the successive
`nextid` calls, and the Conns handed on carry ids of Conns created, in the same order. -/
theorem created_ids (x : Ext) (calls : List Call) : ∀ w : World,
    (created x w calls).map Conn.id
        = (List.range (created x w calls).length).map
            (fun i => (nextid (connidAfter w.connid i)).1) ∧
      ((returned x w calls).map Conn.id).Sublist ((created x w calls).map Conn.id) := by
  induction calls with
  | nil =>
    intro w
    exact ⟨rfl, List.Sublist.refl _⟩
  | cons call rest ih =>
    intro w
    have hc := Call_ids x w call
    have hn := Call_counter x w call
    have ih2 := ih { w with connid := call.connid x w }
    constructor
    · show List.map Conn.id
          (call.created x w ++ created x { w with connid := call.connid x w } rest)
        = List.map _ (List.range
            (call.created x w ++ created x { w with connid := call.connid x w } rest).length)
      rw [List.map_append, hc.1, ih2.1, List.length_append, List.range_add, List.map_append,
        List.map_map]
      congr 1
      apply List.map_congr_left
      intro i _
      show (nextid (connidAfter (call.connid x w) i)).1 = _
      rw [hn, connidAfter_add]
      rfl
    · show List.Sublist
        (List.map Conn.id
          (call.returned x w ++ returned x { w with connid := call.connid x w } rest))
        (List.map Conn.id
          (call.created x w ++ created x { w with connid := call.connid x w } rest))
      rw [List.map_append, List.map_append]
      exact List.Sublist.append hc.2 ih2.2

/-- C17 as stated fails: in the history that starts from counter 0, call number 2^32
returns 0, which is smaller than the id 1 that the first call returned, and call number
2^32 + 1 returns 1, the id of the first call. -/
theorem nextid_wraps_around :
    callid 0 = 1 ∧ callid (2 ^ 32 - 1) = 0 ∧ callid (2 ^ 32) = callid 0 := by
  rw [callid_eq, callid_eq, callid_eq]
  decide

/-- C17, amended: in every sequential history of `nextid` calls that starts from the
counter value 0, call number `k + 1` returns `(k + 1) mod 2^32`; as long as fewer than 2^32
calls have been made it returns `k + 1`, a strictly larger id than every earlier call. In a
sequential history of `Dial` and `Accept` calls that starts from the counter value 0, the
`i`-th Conn created (counting from 0) has the id that `nextid` call number `i + 1` returns,
and the Conns that the calls hand on carry ids of the Conns created, in the same order; so
as long as fewer than 2^32 Conns have been created, the ids of the Conns created are
strictly increasing, and the ids of any two Conns created, and of any two handed on, are
distinct. -/
theorem nextid_increasing_below_wrap (x : Ext) (w : World) (calls : List Call)
    (hw : w.connid = 0) :
    (∀ k : Nat, callid k = (k + 1) % 2 ^ 32) ∧
      (∀ j k : Nat, j < k → k + 1 < 2 ^ 32 → callid k = k + 1 ∧ callid j < callid k) ∧
      (∀ (i : Nat) (c : Conn), (created x w calls)[i]? = some c → c.id = callid i) ∧
      ((returned x w calls).map Conn.id).Sublist ((created x w calls).map Conn.id) ∧
      ((created x w calls).length < 2 ^ 32 →
        ((created x w calls).map Conn.id).Pairwise (· < ·) ∧
          ((created x w calls).map Conn.id).Nodup ∧
          ((returned x w calls).map Conn.id).Nodup) := by
  have hids := created_ids x calls w
  rw [hw] at hids
  have hmap : (created x w calls).map Conn.id
      = (List.range (created x w calls).length).map callid := hids.1
  refine ⟨callid_eq, ?_, ?_, hids.2, ?_⟩
  · intro j k hjk hk
    rw [callid_eq, callid_eq]
    omega
  · intro i c hic
    have hlt : i < (created x w calls).length := (List.getElem?_eq_some.1 hic).1
    have h1 : ((created x w calls).map Conn.id)[i]? = some c.id := by
      rw [List.getElem?_map, hic]
      rfl
    rw [hmap, List.getElem?_map, List.getElem?_range hlt] at h1
    injection h1 with h2
    exact h2.symm
  · intro hlen
    have hp : ((created x w calls).map Conn.id).Pairwise (· < ·) := by
      rw [hmap, List.pairwise_map]
      refine List.Pairwise.imp_of_mem ?_ (List.pairwise_lt_range _)
      intro a b ha hb hab
      have hb2 : b < (created x w calls).length := List.mem_range.1 hb
      rw [callid_eq, callid_eq]
      omega
    have hn : ((created x w calls).map Conn.id).Nodup :=
      List.Pairwise.imp (fun h => Nat.ne_of_lt h) hp
    exact ⟨hp, hn, List.Nodup.sublist hids.2 hn⟩

theorem nextid_increasing_below_wrap_witness :
    (created wire redirectWorld calls5).map Conn.id = [1, 2, 3, 4] ∧
      (returned wire redirectWorld calls5).map Conn.id = [1, 2, 3] ∧
      ((created wire redirectWorld calls5).map Conn.id).Pairwise (· < ·) ∧
      ((returned wire redirectWorld calls5).map Conn.id).Nodup :=
  have h := nextid_increasing_below_wrap wire redirectWorld calls5 rfl
  ⟨by decide, by decide, (h.2.2.2.2 (by decide)).1, (h.2.2.2.2 (by decide)).2.2⟩

/-! ## C26 -/

/-- C26: a run of `handshake` that returns an error, whichever one, leaves the negotiated
parameters of the Conn as they were: `ReceiveBufSize`, `SendBufSize`, `MaxMessageSize` and
`MaxChunkCount` are the same after the call as before it. -/
theorem handshake_error_keeps_limits (x : Ext) (c : Conn) (endpoint : Bytes)
    (herr : (c.handshake x endpoint).2 ≠ none) :
    (c.handshake x endpoint).1.ack = c.ack ∧
      (c.handshake x endpoint).1.ReceiveBufSize = c.ReceiveBufSize ∧
      (c.handshake x endpoint).1.SendBufSize = c.SendBufSize ∧
      (c.handshake x endpoint).1.MaxMessageSize = c.MaxMessageSize ∧
      (c.handshake x endpoint).1.MaxChunkCount = c.MaxChunkCount := by
  have key : (c.handshake x endpoint).1.ack = c.ack := by
    have hs := (send_frame x c HELF (.hello (c.hel endpoint))).2.1
    unfold Conn.handshake at herr ⊢
    rcases hsend : c.send x HELF (.hello (c.hel endpoint)) with ⟨c1, _ | e⟩
    · rw [hsend] at hs
      have hs1 : c1.ack = c.ack := hs
      have hr := (recv_frame c1).2.1
      simp only [hsend] at herr ⊢
      rcases hrecv : c1.recv with ⟨c2, e | b⟩
      · rw [hrecv] at hr
        exact Eq.trans hr hs1
      · rw [hrecv] at hr
        have hr1 : c2.ack = c.ack := Eq.trans hr hs1
        simp only [hrecv] at herr ⊢
        by_cases htag : b.take 4 = ACKF
        · simp only [htag, ne_eq, not_true_eq_false, if_false] at herr ⊢
          rcases hdec : x.DecodeAcknowledge (b.drop hdrlen) with _ | ack
          · exact hr1
          · simp only [hdec] at herr ⊢
            by_cases hver : ack.Version = 0
            · simp only [hver, ne_eq, not_true_eq_false, if_false] at herr
            · simp only [ne_eq, hver, not_false_eq_true, if_true]
              exact hr1
        · simp only [ne_eq, htag, not_false_eq_true, if_true]
          exact hr1
    · rw [hsend] at hs
      simp only [hsend]
      exact hs
  exact ⟨key, congrArg Acknowledge.ReceiveBufSize key, congrArg Acknowledge.SendBufSize key,
    congrArg Acknowledge.MaxMessageSize key, congrArg Acknowledge.MaxChunkCount key⟩

theorem handshake_error_keeps_limits_witness :
    ((dialConn 0 (pipe (frame ACKF (putAcknowledge version1)))).handshake wire xy).2
        = some (.invalidVersion 1) ∧
      ((dialConn 0 (pipe (frame ACKF (putAcknowledge version1)))).handshake wire xy).1.ack
        = (dialConn 0 (pipe (frame ACKF (putAcknowledge version1)))).ack :=
  ⟨by decide,
    (handshake_error_keeps_limits wire (dialConn 0 (pipe (frame ACKF (putAcknowledge version1))))
      xy (by decide)).1⟩

end Uacp

namespace Datatypes

/-! ## C18 -/

/-- C18 (what the code does): for an 8-byte input whose most significant bit is set,
`UInt64.DecodeFromBytes` returns no error and stores in `Value` the little-endian number
minus 2^64, a negative number, not the unsigned number in the range 0 .. 2^64-1. -/
theorem UInt64_decode_high_bit_negative (i : UInt64) (b : List Nat) (hlen : b.length = 8)
    (hb : ∀ x ∈ b, x < 256) (hmsb : 128 ≤ b.getD 7 0) :
    (i.DecodeFromBytes b).2 = none ∧ 2 ^ 63 ≤ Uint64 b ∧ Uint64 b < 2 ^ 64 ∧
      (i.DecodeFromBytes b).1.Value = (Uint64 b : Int) - 2 ^ 64 ∧
      (i.DecodeFromBytes b).1.Value < 0 := by
  match b, hlen with
  | [b0, b1, b2, b3, b4, b5, b6, b7], _ =>
    simp only [List.mem_cons, List.mem_singleton, forall_eq_or_imp, forall_eq,
      List.not_mem_nil, false_implies, implies_true, and_true] at hb
    obtain ⟨h0, h1, h2, h3, h4, h5, h6, h7⟩ := hb
    have h7m : 128 ≤ b7 := hmsb
    have hu : Uint64 [b0, b1, b2, b3, b4, b5, b6, b7] =
        b0 + 256 * b1 + 65536 * b2 + 16777216 * b3 + 4294967296 * b4 + 1099511627776 * b5 +
          281474976710656 * b6 + 72057594037927936 * b7 := by
      simp [Uint64]
    have hlo : 2 ^ 63 ≤ Uint64 [b0, b1, b2, b3, b4, b5, b6, b7] := by rw [hu]; omega
    have hhi : Uint64 [b0, b1, b2, b3, b4, b5, b6, b7] < 2 ^ 64 := by rw [hu]; omega
    have hv : (UInt64.DecodeFromBytes i [b0, b1, b2, b3, b4, b5, b6, b7]).1.Value =
        (Uint64 [b0, b1, b2, b3, b4, b5, b6, b7] : Int) - 2 ^ 64 := by
      show int64 (Uint64 [b0, b1, b2, b3, b4, b5, b6, b7]) = _
      unfold int64
      rw [Nat.mod_eq_of_lt hhi, if_neg (by omega)]
    refine ⟨rfl, hlo, hhi, hv, ?_⟩
    rw [hv]
    omega

theorem UInt64_decode_high_bit_negative_witness :
    (UInt64.DecodeFromBytes { Value := 0 } [0, 0, 0, 0, 0, 0, 0, 128]).2 = none ∧
      Uint64 [0, 0, 0, 0, 0, 0, 0, 128] = 9223372036854775808 ∧
      (UInt64.DecodeFromBytes { Value := 0 } [0, 0, 0, 0, 0, 0, 0, 128]).1.Value
        = -9223372036854775808 :=
  have h := UInt64_decode_high_bit_negative { Value := 0 } [0, 0, 0, 0, 0, 0, 0, 128]
    (by decide) (by decide) (by decide)
  ⟨h.1, by decide, h.2.2.2.1⟩

/-! ## Little-endian bytes -/

/-- Reading back the bytes of `PutUint32`. -/
theorem Uint32_PutUint32 (u : Nat) : Uint32 (PutUint32 u) = u % 2 ^ 32 := by
  simp only [Uint32, PutUint32, List.getD_cons_zero, List.getD_cons_succ]
  omega

/-- Reading back the bytes of `PutUint64`. -/
theorem Uint64_PutUint64 (u : Nat) : Uint64 (PutUint64 u) = u % 2 ^ 64 := by
  simp only [Uint64, PutUint64, List.getD_cons_zero, List.getD_cons_succ]
  omega

/-- The conversions `int32(uint32(v))` give back an int32 `v`. -/
theorem int32_uint32 (v : Int) (h1 : -2 ^ 31 ≤ v) (h2 : v < 2 ^ 31) :
    int32 (uint32 v) = v := by
  unfold int32 uint32; omega

/-- The conversions `int64(uint64(v))` give back an int64 `v`. -/
theorem int64_uint64 (v : Int) (h1 : -2 ^ 63 ≤ v) (h2 : v < 2 ^ 63) :
    int64 (uint64 v) = v := by
  unfold int64 uint64; omega

/-! ## C23 -/

/-- C23: for `Int32`, `UInt32` (width 4) and `Int64`, `UInt64` (width 8) and every byte
slice `b`: `DecodeFromBytes` returns an error exactly when `len(b)` is below the width; then
the receiver is unchanged; otherwise `Value` is the little-endian number of the first width
bytes (through the conversion to the declared type of `Value`), so bytes that follow a
slice `p` of exactly the width change nothing. -/
theorem scalar_decode_checks_length (b p t : List Nat) (i32 : Int32) (u32 : UInt32)
    (i64 : Int64) (u64 : UInt64) :
    (((i32.DecodeFromBytes b).2 ≠ none ↔ b.length < 4) ∧
      (b.length < 4 → (i32.DecodeFromBytes b).1 = i32) ∧
      (4 ≤ b.length → (i32.DecodeFromBytes b).1.Value = int32 (Uint32 (b.take 4))) ∧
      (p.length = 4 → i32.DecodeFromBytes (p ++ t) = i32.DecodeFromBytes p)) ∧
    (((u32.DecodeFromBytes b).2 ≠ none ↔ b.length < 4) ∧
      (b.length < 4 → (u32.DecodeFromBytes b).1 = u32) ∧
      (4 ≤ b.length → (u32.DecodeFromBytes b).1.Value = Uint32 (b.take 4)) ∧
      (p.length = 4 → u32.DecodeFromBytes (p ++ t) = u32.DecodeFromBytes p)) ∧
    (((i64.DecodeFromBytes b).2 ≠ none ↔ b.length < 8) ∧
      (b.length < 8 → (i64.DecodeFromBytes b).1 = i64) ∧
      (8 ≤ b.length → (i64.DecodeFromBytes b).1.Value = int64 (Uint64 (b.take 8))) ∧
      (p.length = 8 → i64.DecodeFromBytes (p ++ t) = i64.DecodeFromBytes p)) ∧
    (((u64.DecodeFromBytes b).2 ≠ none ↔ b.length < 8) ∧
      (b.length < 8 → (u64.DecodeFromBytes b).1 = u64) ∧
      (8 ≤ b.length → (u64.DecodeFromBytes b).1.Value = int64 (Uint64 (b.take 8))) ∧
      (p.length = 8 → u64.DecodeFromBytes (p ++ t) = u64.DecodeFromBytes p)) := by
  refine ⟨⟨?_, ?_, ?_, ?_⟩, ⟨?_, ?_, ?_, ?_⟩, ⟨?_, ?_, ?_, ?_⟩, ⟨?_, ?_, ?_, ?_⟩⟩
  · unfold Int32.DecodeFromBytes; by_cases h : b.length < 4 <;> simp [h]
  · intro h; unfold Int32.DecodeFromBytes; rw [if_pos h]
  · intro h; unfold Int32.DecodeFromBytes; rw [if_neg (by omega)]
  · intro h; unfold Int32.DecodeFromBytes
    rw [if_neg (by rw [List.length_append]; omega), if_neg (by omega), List.take_left' h,
      List.take_of_length_le (by omega)]
  · unfold UInt32.DecodeFromBytes; by_cases h : b.length < 4 <;> simp [h]
  · intro h; unfold UInt32.DecodeFromBytes; rw [if_pos h]
  · intro h; unfold UInt32.DecodeFromBytes; rw [if_neg (by omega)]
  · intro h; unfold UInt32.DecodeFromBytes
    rw [if_neg (by rw [List.length_append]; omega), if_neg (by omega), List.take_left' h,
      List.take_of_length_le (by omega)]
  · unfold Int64.DecodeFromBytes; by_cases h : b.length < 8 <;> simp [h]
  · intro h; unfold Int64.DecodeFromBytes; rw [if_pos h]
  · intro h; unfold Int64.DecodeFromBytes; rw [if_neg (by omega)]
  · intro h; unfold Int64.DecodeFromBytes
    rw [if_neg (by rw [List.length_append]; omega), if_neg (by omega), List.take_left' h,
      List.take_of_length_le (by omega)]
  · unfold UInt64.DecodeFromBytes; by_cases h : b.length < 8 <;> simp [h]
  · intro h; unfold UInt64.DecodeFromBytes; rw [if_pos h]
  · intro h; unfold UInt64.DecodeFromBytes; rw [if_neg (by omega)]
  · intro h; unfold UInt64.DecodeFromBytes
    rw [if_neg (by rw [List.length_append]; omega), if_neg (by omega), List.take_left' h,
      List.take_of_length_le (by omega)]

theorem scalar_decode_checks_length_witness :
    (Int32.DecodeFromBytes { Value := 7 } [1, 2, 3]).1 = { Value := 7 } ∧
      Int32.DecodeFromBytes { Value := 7 } ([254, 255, 255, 255] ++ [9, 9])
        = Int32.DecodeFromBytes { Value := 7 } [254, 255, 255, 255] ∧
      (UInt64.DecodeFromBytes { Value := 7 } [1, 2, 3]).1 = { Value := 7 } :=
  have h := scalar_decode_checks_length [1, 2, 3] [254, 255, 255, 255] [9, 9] { Value := 7 }
    { Value := 7 } { Value := 7 } { Value := 7 }
  ⟨h.1.2.1 (by decide), h.1.2.2.2 (by decide), h.2.2.2.2.1 (by decide)⟩

/-! ## C24 -/

/-- C24: for `Int32`, `UInt32`, `Int64` and `UInt64` and every value `v` that the declared
type of `Value` can hold, `Serialize` returns no error and exactly `Len()` bytes (4 or 8),
the little-endian bytes of `v` in two's complement (of `v mod 2^32`, `v mod 2^64`), and
`DecodeFromBytes` applied to those bytes returns no error and sets `Value` to `v`. -/
theorem scalar_serialize_then_decode (v32 : Int) (w32 : Nat) (v64 : Int)
    (h32 : -2 ^ 31 ≤ v32 ∧ v32 < 2 ^ 31) (hw32 : w32 < 2 ^ 32)
    (h64 : -2 ^ 63 ≤ v64 ∧ v64 < 2 ^ 63) :
    ((Int32.mk v32).Serialize = some (PutUint32 (uint32 v32), none) ∧
      (PutUint32 (uint32 v32)).length = (Int32.mk v32).Len ∧ (Int32.mk v32).Len = 4 ∧
      Uint32 (PutUint32 (uint32 v32)) = (v32 % 2 ^ 32).toNat ∧
      ∀ i : Int32, i.DecodeFromBytes (PutUint32 (uint32 v32)) = ({ Value := v32 }, none)) ∧
    ((UInt32.mk w32).Serialize = some (PutUint32 w32, none) ∧
      (PutUint32 w32).length = (UInt32.mk w32).Len ∧ (UInt32.mk w32).Len = 4 ∧
      Uint32 (PutUint32 w32) = w32 ∧
      ∀ i : UInt32, i.DecodeFromBytes (PutUint32 w32) = ({ Value := w32 }, none)) ∧
    ((Int64.mk v64).Serialize = some (PutUint64 (uint64 v64), none) ∧
      (PutUint64 (uint64 v64)).length = (Int64.mk v64).Len ∧ (Int64.mk v64).Len = 8 ∧
      Uint64 (PutUint64 (uint64 v64)) = (v64 % 2 ^ 64).toNat ∧
      ∀ i : Int64, i.DecodeFromBytes (PutUint64 (uint64 v64)) = ({ Value := v64 }, none)) ∧
    ((UInt64.mk v64).Serialize = some (PutUint64 (uint64 v64), none) ∧
      (PutUint64 (uint64 v64)).length = (UInt64.mk v64).Len ∧ (UInt64.mk v64).Len = 8 ∧
      Uint64 (PutUint64 (uint64 v64)) = (v64 % 2 ^ 64).toNat ∧
      ∀ i : UInt64, i.DecodeFromBytes (PutUint64 (uint64 v64)) = ({ Value := v64 }, none)) := by
  have e32 : Uint32 (PutUint32 (uint32 v32)) = uint32 v32 := by
    rw [Uint32_PutUint32]; unfold uint32; omega
  have ew32 : Uint32 (PutUint32 w32) = w32 := by
    rw [Uint32_PutUint32]; exact Nat.mod_eq_of_lt hw32
  have e64 : Uint64 (PutUint64 (uint64 v64)) = uint64 v64 := by
    rw [Uint64_PutUint64]; unfold uint64; omega
  have t4 : ∀ u, (PutUint32 u).take 4 = PutUint32 u := fun u => rfl
  have l4 : ∀ u, ¬(PutUint32 u).length < 4 := fun _ => Nat.lt_irrefl 4
  have l8 : ∀ u, ¬(PutUint64 u).length < 8 := fun _ => Nat.lt_irrefl 8
  have t8 : ∀ u, (PutUint64 u).take 8 = PutUint64 u := fun u => rfl
  refine ⟨⟨rfl, rfl, rfl, e32, ?_⟩, ⟨?_, rfl, rfl, ew32, ?_⟩, ⟨rfl, rfl, rfl, e64, ?_⟩,
    ⟨rfl, rfl, rfl, e64, ?_⟩⟩
  · intro i
    unfold Int32.DecodeFromBytes
    rw [if_neg (l4 _), t4, e32, int32_uint32 v32 h32.1 h32.2]
  · show some (PutUint32 (w32 % 2 ^ 32), none) = _
    rw [Nat.mod_eq_of_lt hw32]
  · intro i
    unfold UInt32.DecodeFromBytes
    rw [if_neg (l4 _), t4, ew32]
  · intro i
    unfold Int64.DecodeFromBytes
    rw [if_neg (l8 _), t8, e64, int64_uint64 v64 h64.1 h64.2]
  · intro i
    unfold UInt64.DecodeFromBytes
    rw [if_neg (l8 _), t8, e64, int64_uint64 v64 h64.1 h64.2]

theorem scalar_serialize_then_decode_witness :
    (Int32.mk (-2)).Serialize = some ([254, 255, 255, 255], none) ∧
      Int32.DecodeFromBytes { Value := 0 } [254, 255, 255, 255] = ({ Value := -2 }, none) ∧
      (UInt64.mk (-1)).Serialize
        = some ([255, 255, 255, 255, 255, 255, 255, 255], none) :=
  have h := scalar_serialize_then_decode (-2) 7 (-1) (by decide) (by decide) (by decide)
  ⟨h.1.1, h.1.2.2.2.2 { Value := 0 }, h.2.2.2.1⟩

/-! ## Slices of a byte slice -/

/-- A four-byte slice expression within the capacity. -/
theorem slice_within (b : Slice) (lo : Nat) (h : lo + 4 ≤ b.cap) :
    b.slice lo (lo + 4) = some (((b.elems ++ b.spare).drop lo).take 4) := by
  unfold Slice.slice
  rw [if_pos ⟨Nat.le_add_right lo 4, h⟩, Nat.add_sub_cancel_left]

/-- A four-byte slice expression that ends beyond the capacity panics. -/
theorem slice_beyond (b : Slice) (lo : Nat) (h : b.cap < lo + 4) :
    b.slice lo (lo + 4) = none := by
  unfold Slice.slice
  rw [if_neg (fun k => absurd k.2 (Nat.not_le.mpr h))]

/-- The decoding loop when all its words lie within the capacity. -/
theorem decode_loop_within (b : Slice) (n : Nat) :
    ∀ (offset : Nat) (values : List Nat), offset + 4 * n ≤ b.cap →
      Uint32Array.DecodeFromBytes.loop b n offset values =
        some (values ++ (List.range n).map fun k =>
          Uint32 (((b.elems ++ b.spare).drop (offset + 4 * k)).take 4)) := by
  induction n with
  | zero =>
    intro offset values _
    rw [Uint32Array.DecodeFromBytes.loop]
    simp
  | succ n ih =>
    intro offset values h
    rw [Uint32Array.DecodeFromBytes.loop, slice_within b offset (by omega)]
    dsimp only
    rw [ih (offset + 4) _ (by omega), List.range_succ_eq_map, List.map_cons, List.map_map,
      List.append_assoc]
    congr 2
    simp only [Nat.mul_zero, Nat.add_zero, List.singleton_append, List.cons.injEq, true_and]
    apply List.map_congr_left
    intro k _
    show Uint32 (((b.elems ++ b.spare).drop (offset + 4 + 4 * k)).take 4) =
      Uint32 (((b.elems ++ b.spare).drop (offset + 4 * (k + 1))).take 4)
    rw [show offset + 4 + 4 * k = offset + 4 * (k + 1) by omega]

/-- The decoding loop when one of its words ends beyond the capacity. -/
theorem decode_loop_beyond (b : Slice) (n : Nat) :
    ∀ (offset : Nat) (values : List Nat), offset ≤ b.cap → b.cap < offset + 4 * n →
      Uint32Array.DecodeFromBytes.loop b n offset values = none := by
  induction n with
  | zero =>
    intro offset values h1 h2
    omega
  | succ n ih =>
    intro offset values h1 h2
    rw [Uint32Array.DecodeFromBytes.loop]
    by_cases h : offset + 4 ≤ b.cap
    · rw [slice_within b offset h]
      dsimp only
      exact ih (offset + 4) _ h (by omega)
    · rw [slice_beyond b offset (by omega)]

/-! ## C22 -/

/-- C22 as stated fails: a slice of length 2 violates the precondition on `len(b)`, yet with
capacity 8 no slice expression is out of range: `DecodeFromBytes` reads the size 1 and the
word 5 from the backing array and returns no error. -/
theorem decode_short_slice_without_panic :
    shortSlice.len = 2 ∧ shortSlice.cap = 8 ∧
      Uint32Array.DecodeFromBytes { ArraySize := 0, Values := [] } shortSlice
        = some ({ ArraySize := 1, Values := [5] }, none) := by
  decide

/-- C22, amended: with `s` the int32 that the first four bytes of the backing array of `b`
encode, `Uint32Array.DecodeFromBytes` is free of out-of-range slice accesses exactly when
`cap(b) ≥ 4` and, if `s` is positive, `cap(b) ≥ 4 + 4*s`. Then it returns no error; with
`s ≤ 0` only `ArraySize` is set; with `s > 0` a fresh receiver gets `ArraySize = s` and the
`s` little-endian uint32 words that follow the size field. For every other input it panics
instead of returning an error. For a slice with `cap(b) = len(b)` this is the precondition
on `len(b)`. -/
theorem Uint32Array_decode_bounds (b : Slice) :
    ((4 ≤ b.cap ∧ (0 < b.size → 4 + 4 * b.size ≤ (b.cap : Int))) →
      (b.size ≤ 0 →
        ∀ u : Uint32Array, u.DecodeFromBytes b = some ({ u with ArraySize := b.size }, none)) ∧
      (0 < b.size →
        Uint32Array.DecodeFromBytes { ArraySize := 0, Values := [] } b =
          some ({ ArraySize := b.size, Values := (List.range b.size.toNat).map b.word },
            none))) ∧
    (¬(4 ≤ b.cap ∧ (0 < b.size → 4 + 4 * b.size ≤ (b.cap : Int))) →
      ∀ u : Uint32Array, u.DecodeFromBytes b = none) ∧
    (b.spare = [] → b.cap = b.len) := by
  refine ⟨?_, ?_, ?_⟩
  · rintro ⟨h4, hs⟩
    have h0 : b.slice 0 4 = some ((b.elems ++ b.spare).take 4) := slice_within b 0 h4
    refine ⟨?_, ?_⟩
    · intro hle u
      unfold Uint32Array.DecodeFromBytes
      rw [h0]
      dsimp only
      have hle2 : int32 (Uint32 ((b.elems ++ b.spare).take 4)) ≤ 0 := hle
      rw [if_pos hle2]
      rfl
    · intro hpos
      unfold Uint32Array.DecodeFromBytes
      rw [h0]
      dsimp only
      rw [if_neg (by unfold Slice.size at hpos; omega)]
      have hcap : 4 + 4 * b.size.toNat ≤ b.cap := by
        have := hs hpos
        omega
      have hl := decode_loop_within b b.size.toNat 4 [] hcap
      unfold Slice.size at hl
      rw [hl]
      rfl
  · intro hnot u
    unfold Uint32Array.DecodeFromBytes
    by_cases h4 : 4 ≤ b.cap
    · have h0 : b.slice 0 4 = some ((b.elems ++ b.spare).take 4) := slice_within b 0 h4
      have hs : 0 < b.size ∧ (b.cap : Int) < 4 + 4 * b.size := by
        by_contra hc
        apply hnot
        refine ⟨h4, fun hp => ?_⟩
        by_contra hc2
        exact hc ⟨hp, by omega⟩
      rw [h0]
      dsimp only
      rw [if_neg (by unfold Slice.size at hs; omega)]
      have hl := decode_loop_beyond b b.size.toNat 4 u.Values h4 (by omega)
      unfold Slice.size at hl
      rw [hl]
    · have h0 : b.slice 0 4 = none := slice_beyond b 0 (by omega)
      rw [h0]
  · intro hsp
    unfold Slice.cap Slice.len
    rw [hsp]
    rfl

theorem Uint32Array_decode_bounds_witness :
    Uint32Array.DecodeFromBytes { ArraySize := 0, Values := [] }
        (Slice.ofList [2, 0, 0, 0, 1, 0, 0, 0, 255, 255, 255, 255])
      = some ({ ArraySize := 2, Values := [1, 4294967295] }, none) ∧
    Uint32Array.DecodeFromBytes { ArraySize := 0, Values := [] }
        (Slice.ofList [2, 0, 0, 0, 1, 0, 0, 0, 255, 255, 255]) = none :=
  ⟨((Uint32Array_decode_bounds
      (Slice.ofList [2, 0, 0, 0, 1, 0, 0, 0, 255, 255, 255, 255])).1
        (by decide)).2 (by decide),
    (Uint32Array_decode_bounds (Slice.ofList [2, 0, 0, 0, 1, 0, 0, 0, 255, 255, 255])).2.1
      (by decide) { ArraySize := 0, Values := [] }⟩

/-! ## Serializing and decoding a `Uint32Array` -/

theorem PutUint32_length (v : Nat) : (PutUint32 v).length = 4 := rfl

theorem words_length (vs : List Nat) : (words vs).length = 4 * vs.length := by
  induction vs with
  | nil => rfl
  | cons v vs ih =>
    rw [words, List.length_append, PutUint32_length, ih, List.length_cons]
    omega

/-- Storing four bytes right after `pre` in a buffer that has at least four bytes there. -/
theorem store_after (pre z w : List Nat) (hw : w.length = 4) (hz : 4 ≤ z.length) :
    store (pre ++ z) pre.length w = some (pre ++ w ++ z.drop 4) := by
  unfold store
  rw [if_pos (by rw [List.length_append, hw]; omega), hw, List.take_left' rfl,
    List.drop_append_eq_append_drop, List.drop_of_length_le (by omega),
    Nat.add_sub_cancel_left, List.nil_append]

/-- The serializing loop fills the buffer behind `pre` with the words of the values. -/
theorem serialize_loop_words (vs : List Nat) :
    ∀ (pre z : List Nat), z.length = 4 * vs.length →
      Uint32Array.SerializeTo.loop vs pre.length (pre ++ z) = some (pre ++ words vs) := by
  induction vs with
  | nil =>
    intro pre z hz
    have hz0 : z = [] := List.length_eq_zero.mp (by simpa using hz)
    rw [Uint32Array.SerializeTo.loop, hz0, words]
  | cons v vs ih =>
    intro pre z hz
    rw [List.length_cons] at hz
    rw [Uint32Array.SerializeTo.loop,
      store_after pre z (PutUint32 v) (PutUint32_length v) (by omega)]
    dsimp only
    have hlen : (pre ++ PutUint32 v).length = pre.length + 4 := by
      rw [List.length_append, PutUint32_length]
    rw [← hlen, ih (pre ++ PutUint32 v) (z.drop 4) (by rw [List.length_drop]; omega), words,
      List.append_assoc]

/-- The decoding loop reads back the words of the values. -/
theorem decode_loop_words (b : Slice) (vs : List Nat) :
    ∀ (offset : Nat) (values rest : List Nat),
      (b.elems ++ b.spare).drop offset = words vs ++ rest → (∀ v ∈ vs, v < 2 ^ 32) →
      Uint32Array.DecodeFromBytes.loop b vs.length offset values = some (values ++ vs) := by
  induction vs with
  | nil =>
    intro offset values rest _ _
    rw [List.length_nil, Uint32Array.DecodeFromBytes.loop, List.append_nil]
  | cons v vs ih =>
    intro offset values rest hdrop hval
    have hv : v < 2 ^ 32 := hval v (List.mem_cons_self v vs)
    have hl : ((b.elems ++ b.spare).drop offset).length
        = 4 + ((words vs).length + rest.length) := by
      rw [hdrop, words, List.length_append, List.length_append, PutUint32_length]
      omega
    have hcap : offset + 4 ≤ b.cap := by
      rw [List.length_drop, List.length_append] at hl
      unfold Slice.cap
      omega
    have htake : ((b.elems ++ b.spare).drop offset).take 4 = PutUint32 v := by
      rw [hdrop, words, List.append_assoc]
      exact List.take_left' (PutUint32_length v)
    have hnext : (b.elems ++ b.spare).drop (offset + 4) = words vs ++ rest := by
      rw [← List.drop_drop, hdrop, words, List.append_assoc]
      exact List.drop_left' (PutUint32_length v)
    rw [List.length_cons, Uint32Array.DecodeFromBytes.loop, slice_within b offset hcap]
    dsimp only
    rw [htake, Uint32_PutUint32, Nat.mod_eq_of_lt hv,
      ih (offset + 4) (values ++ [v]) rest hnext
        (fun x hx => hval x (List.mem_cons_of_mem v hx)),
      List.append_assoc]
    rfl

/-! ## C25 -/

/-- C25: for every list `vals` of uint32 values with fewer than 2^31 elements, the nil list
and the empty list included, `Serialize` of `NewUint32Array(vals)` returns no error and
`4 + 4*len(vals)` bytes that start with `len(vals)` in little-endian order, and
`DecodeUint32Array` of those bytes returns no error and an array with
`ArraySize = len(vals)` and `Values` equal to `vals`. -/
theorem Uint32Array_serialize_then_decode (vals : Option (List Nat))
    (hlen : (vals.getD []).length < 2 ^ 31) (hval : ∀ v ∈ vals.getD [], v < 2 ^ 32) :
    (NewUint32Array vals).Serialize
        = some (PutUint32 (vals.getD []).length ++ words (vals.getD []), none) ∧
      (PutUint32 (vals.getD []).length ++ words (vals.getD [])).length
        = 4 + 4 * (vals.getD []).length ∧
      (PutUint32 (vals.getD []).length ++ words (vals.getD [])).take 4
        = PutUint32 (vals.getD []).length ∧
      DecodeUint32Array
          (Slice.ofList (PutUint32 (vals.getD []).length ++ words (vals.getD [])))
        = some (some { ArraySize := ((vals.getD []).length : Nat),
                       Values := vals.getD [] }, none) := by
  have hsize : int32 (vals.getD []).length = ((vals.getD []).length : Nat) := by
    unfold int32; omega
  have hu : uint32 (int32 (vals.getD []).length) = (vals.getD []).length := by
    rw [hsize]; unfold uint32; omega
  have hnew : NewUint32Array vals
      = { ArraySize := int32 (vals.getD []).length, Values := vals.getD [] } := by
    cases vals with
    | none => rfl
    | some vs => rfl
  refine ⟨?_, ?_, List.take_left' (PutUint32_length _), ?_⟩
  · rw [hnew]
    unfold Uint32Array.Serialize Uint32Array.SerializeTo Uint32Array.Len
    dsimp only
    have h1 : store (List.replicate (4 + (vals.getD []).length * 4) 0) 0
        (PutUint32 (uint32 (int32 (vals.getD []).length)))
        = some (PutUint32 (uint32 (int32 (vals.getD []).length)) ++
            (List.replicate (4 + (vals.getD []).length * 4) 0).drop 4) :=
      store_after [] (List.replicate (4 + (vals.getD []).length * 4) 0)
        (PutUint32 (uint32 (int32 (vals.getD []).length))) (PutUint32_length _)
        (by rw [List.length_replicate]; omega)
    rw [h1, hu]
    dsimp only
    have h2 : Uint32Array.SerializeTo.loop (vals.getD []) 4
        (PutUint32 (vals.getD []).length ++
          (List.replicate (4 + (vals.getD []).length * 4) 0).drop 4)
        = some (PutUint32 (vals.getD []).length ++ words (vals.getD [])) :=
      serialize_loop_words (vals.getD []) (PutUint32 (vals.getD []).length)
        ((List.replicate (4 + (vals.getD []).length * 4) 0).drop 4)
        (by rw [List.length_drop, List.length_replicate]; omega)
    rw [h2]
  · rw [List.length_append, PutUint32_length, words_length]
  · unfold DecodeUint32Array Uint32Array.DecodeFromBytes
    have hcap : 0 + 4 ≤ (Slice.ofList
        (PutUint32 (vals.getD []).length ++ words (vals.getD []))).cap := by
      unfold Slice.cap Slice.ofList
      simp only [List.length_append, PutUint32_length]
      omega
    have h0 := slice_within _ 0 hcap
    have htake : (((Slice.ofList
        (PutUint32 (vals.getD []).length ++ words (vals.getD []))).elems ++
        (Slice.ofList (PutUint32 (vals.getD []).length ++ words (vals.getD []))).spare).drop
          0).take 4 = PutUint32 (vals.getD []).length := by
      show ((PutUint32 (vals.getD []).length ++ words (vals.getD []) ++ []).drop 0).take 4 = _
      rw [List.append_nil, List.drop_zero]
      exact List.take_left' (PutUint32_length _)
    rw [htake] at h0
    rw [h0]
    dsimp only
    rw [Uint32_PutUint32, Nat.mod_eq_of_lt (by omega), hsize]
    by_cases hz : (vals.getD []).length = 0
    · have hnil : vals.getD [] = [] := List.length_eq_zero.mp hz
      rw [hnil]
      rfl
    · rw [if_neg (by omega)]
      have hdrop : ((Slice.ofList
          (PutUint32 (vals.getD []).length ++ words (vals.getD []))).elems ++
          (Slice.ofList (PutUint32 (vals.getD []).length ++ words (vals.getD []))).spare).drop
            4 = words (vals.getD []) ++ [] := by
        show (PutUint32 (vals.getD []).length ++ words (vals.getD []) ++ []).drop 4 = _
        rw [List.append_assoc]
        exact List.drop_left' (PutUint32_length _)
      have hloop := decode_loop_words _ (vals.getD []) 4 [] [] hdrop hval
      rw [Int.toNat_ofNat, hloop]
      rfl

theorem Uint32Array_serialize_then_decode_witness :
    (NewUint32Array (some [1, 2, 4294967295])).Serialize
        = some ([3, 0, 0, 0, 1, 0, 0, 0, 2, 0, 0, 0, 255, 255, 255, 255], none) ∧
      DecodeUint32Array
          (Slice.ofList [3, 0, 0, 0, 1, 0, 0, 0, 2, 0, 0, 0, 255, 255, 255, 255])
        = some (some { ArraySize := 3, Values := [1, 2, 4294967295] }, none) :=
  have h := Uint32Array_serialize_then_decode (some [1, 2, 4294967295]) (by decide)
    (by decide)
  ⟨h.1, h.2.2.2⟩

end Datatypes

namespace Opcua

/-! ## The loop of `Client.Read` -/

/-- Positions below the length of a list are unchanged in every extension of it. -/
theorem getElem?_of_extends {α : Type} (l l2 : List α) (k : Nat) (hp : l <+: l2)
    (hk : k < l.length) : l2[k]? = l[k]? := by
  obtain ⟨t, rfl⟩ := hp
  exact List.getElem?_append_left hk

/-- An entry with an attribute id and an encoding is its own defaulted entry. -/
theorem defaulted_complete {Q : Type} (ua : UA Q) (v : ReadValueID Q)
    (hc : v.AttributeID ≠ 0 ∧ v.DataEncoding.isSome = true) : defaulted ua v = v := by
  cases v
  simp_all [defaulted]

/-- The loop on an entry that has an attribute id and an encoding: the pointer is shared. -/
theorem loop_share {Q : Type} (ua : UA Q) (rv : Nat) (rest : List Nat)
    (h : List (ReadValueID Q)) (v : ReadValueID Q) (hv : h[rv]? = some v)
    (hc : v.AttributeID ≠ 0 ∧ v.DataEncoding.isSome = true) :
    Client.Read.loop ua (rv :: rest) h =
      (Client.Read.loop ua rest h).map fun r => (r.1, rv :: r.2) := by
  rw [Client.Read.loop]
  simp only [hv]
  rw [if_pos hc]

/-- The loop on an entry that lacks an attribute id or an encoding: a new ReadValueID is
allocated at the end of the memory and receives the defaults. -/
theorem loop_clone {Q : Type} (ua : UA Q) (rv : Nat) (rest : List Nat)
    (h : List (ReadValueID Q)) (v : ReadValueID Q) (hv : h[rv]? = some v)
    (hc : ¬(v.AttributeID ≠ 0 ∧ v.DataEncoding.isSome = true)) :
    Client.Read.loop ua (rv :: rest) h =
      (Client.Read.loop ua rest (h ++ [defaulted ua v])).map
        fun r => (r.1, h.length :: r.2) := by
  rw [Client.Read.loop]
  simp only [hv]
  rw [if_neg hc]
  cases v with
  | mk n a r d =>
    cases d <;> by_cases ha : a = 0 <;>
      simp [store, defaulted, ha, List.set_append]

/-- The loop only appends to the memory of ReadValueIDs. -/
theorem loop_extends {Q : Type} (ua : UA Q) (l : List Nat) :
    ∀ (h h2 : List (ReadValueID Q)) (rvs : List Nat),
      Client.Read.loop ua l h = some (h2, rvs) → h <+: h2 := by
  induction l with
  | nil =>
    intro h h2 rvs hl
    rw [Client.Read.loop] at hl
    cases hl
    exact List.prefix_refl h
  | cons rv rest ih =>
    intro h h2 rvs hl
    rcases hv : h[rv]? with _ | v
    · rw [Client.Read.loop] at hl
      simp only [hv] at hl
      cases hl
    · by_cases hc : v.AttributeID ≠ 0 ∧ v.DataEncoding.isSome = true
      · rw [loop_share ua rv rest h v hv hc] at hl
        rcases hr : Client.Read.loop ua rest h with _ | ⟨h3, rvs3⟩
        · rw [hr] at hl; cases hl
        · rw [hr] at hl
          cases hl
          exact ih h h3 rvs3 hr
      · rw [loop_clone ua rv rest h v hv hc] at hl
        rcases hr : Client.Read.loop ua rest (h ++ [defaulted ua v]) with _ | ⟨h3, rvs3⟩
        · rw [hr] at hl; cases hl
        · rw [hr] at hl
          cases hl
          exact List.IsPrefix.trans (List.prefix_append h _) (ih _ h3 rvs3 hr)

/-- On non-nil entries the loop terminates without panic; entry `i` of `rvs` points to the
defaulted copy of what entry `i` of the input points to. -/
theorem loop_total {Q : Type} (ua : UA Q) (l : List Nat) :
    ∀ (h : List (ReadValueID Q)), (∀ a ∈ l, a < h.length) →
      ∃ h2 rvs, Client.Read.loop ua l h = some (h2, rvs) ∧ rvs.length = l.length ∧
        ∀ (i a : Nat), l[i]? = some a →
          ∃ (a2 : Nat) (v : ReadValueID Q),
            rvs[i]? = some a2 ∧ h[a]? = some v ∧ h2[a2]? = some (defaulted ua v) := by
  induction l with
  | nil =>
    intro h _
    refine ⟨h, [], by rw [Client.Read.loop], rfl, ?_⟩
    intro i a hi
    simp at hi
  | cons rv rest ih =>
    intro h hval
    have hrv : rv < h.length := hval rv (List.mem_cons_self rv rest)
    have hrest : ∀ a ∈ rest, a < h.length := fun a ha => hval a (List.mem_cons_of_mem rv ha)
    have hv : h[rv]? = some h[rv] := List.getElem?_eq_getElem hrv
    by_cases hc : h[rv].AttributeID ≠ 0 ∧ h[rv].DataEncoding.isSome = true
    · obtain ⟨h2, rvs, hl, hlen, hent⟩ := ih h hrest
      have hp := loop_extends ua rest h h2 rvs hl
      refine ⟨h2, rv :: rvs, ?_, by rw [List.length_cons, List.length_cons, hlen], ?_⟩
      · rw [loop_share ua rv rest h h[rv] hv hc, hl]
        rfl
      · intro i a hi
        cases i with
        | zero =>
          have ha : rv = a := by simpa using hi
          subst ha
          refine ⟨rv, h[rv], List.getElem?_cons_zero, hv, ?_⟩
          rw [getElem?_of_extends h h2 rv hp hrv, hv, defaulted_complete ua _ hc]
        | succ j =>
          have hj : rest[j]? = some a := by simpa using hi
          obtain ⟨a2, v, h1, h2', h3⟩ := hent j a hj
          exact ⟨a2, v, by simpa using h1, h2', h3⟩
    · have hval2 : ∀ a ∈ rest, a < (h ++ [defaulted ua h[rv]]).length := by
        intro a ha
        rw [List.length_append]
        exact Nat.lt_add_right _ (hrest a ha)
      obtain ⟨h2, rvs, hl, hlen, hent⟩ := ih (h ++ [defaulted ua h[rv]]) hval2
      have hp := loop_extends ua rest _ h2 rvs hl
      refine ⟨h2, h.length :: rvs, ?_, by rw [List.length_cons, List.length_cons, hlen], ?_⟩
      · rw [loop_clone ua rv rest h h[rv] hv hc, hl]
        rfl
      · intro i a hi
        cases i with
        | zero =>
          have ha : rv = a := by simpa using hi
          subst ha
          refine ⟨h.length, h[rv], List.getElem?_cons_zero, hv, ?_⟩
          rw [getElem?_of_extends _ h2 h.length hp (by simp)]
          exact List.getElem?_concat_length h _
        | succ j =>
          have hj : rest[j]? = some a := by simpa using hi
          obtain ⟨a2, v, h1, h2', h3⟩ := hent j a hj
          have hlt : a < h.length := hrest a (List.getElem?_mem hj)
          refine ⟨a2, v, by simpa using h1, ?_, h3⟩
          rw [← h2']
          exact (List.getElem?_append_left hlt).symm

/-! ## C19 -/

/-- C19: for a request whose entries are non-nil pointers, `Client.Read` hands to the secure
channel a new request with the same `MaxAge` and `TimestampsToReturn` and as many
`NodesToRead` in the same order; its `i`-th entry has the `NodeID` and `IndexRange` of the
`i`-th input entry, the input's `AttributeID` if that is nonzero and `ua.IntegerIDValue`
otherwise, and the input's `DataEncoding` if that is non-nil and an empty QualifiedName
otherwise. -/
theorem Read_hands_on_defaulted_request {Q : Type} (ua : UA Q) (m : Mem Q) (req : Nat)
    (r : ReadRequest) (hreq : m.reqs[req]? = some r)
    (hval : ∀ a ∈ r.NodesToRead, a < m.rvs.length) :
    ∃ m2 req2 r2, Client.Read ua m req = some (m2, req2) ∧ m2.reqs[req2]? = some r2 ∧
      r2.MaxAge = r.MaxAge ∧ r2.TimestampsToReturn = r.TimestampsToReturn ∧
      r2.NodesToRead.length = r.NodesToRead.length ∧
      ∀ (i a : Nat), r.NodesToRead[i]? = some a →
        ∃ (a2 : Nat) (v v2 : ReadValueID Q), r2.NodesToRead[i]? = some a2 ∧
          m.rvs[a]? = some v ∧
          m2.rvs[a2]? = some v2 ∧ v2.NodeID = v.NodeID ∧ v2.IndexRange = v.IndexRange ∧
          v2.AttributeID = (if v.AttributeID ≠ 0 then v.AttributeID else ua.IntegerIDValue) ∧
          v2.DataEncoding =
            (if v.DataEncoding.isSome = true then v.DataEncoding
             else some ua.QualifiedName) := by
  obtain ⟨h2, rvs, hl, hlen, hent⟩ := loop_total ua r.NodesToRead m.rvs hval
  refine ⟨{ reqs := m.reqs ++ [{ MaxAge := r.MaxAge,
                                 TimestampsToReturn := r.TimestampsToReturn,
                                 NodesToRead := rvs }],
            rvs := h2 }, m.reqs.length,
    { MaxAge := r.MaxAge, TimestampsToReturn := r.TimestampsToReturn, NodesToRead := rvs },
    ?_, ?_, rfl, rfl, hlen, ?_⟩
  · unfold Client.Read
    simp only [hreq, hl]
  · exact List.getElem?_concat_length m.reqs _
  · intro i a hi
    obtain ⟨a2, v, h1, h2', h3⟩ := hent i a hi
    exact ⟨a2, v, defaulted ua v, h1, h2', h3, rfl, rfl, rfl, rfl⟩

theorem Read_hands_on_defaulted_request_witness :
    Client.Read ua13 mem3 0 =
      some ({ reqs := mem3.reqs ++
                [{ MaxAge := 7, TimestampsToReturn := 2, NodesToRead := [0, 3, 4] }],
              rvs := mem3.rvs ++
                [{ NodeID := 101, AttributeID := 13, IndexRange := [],
                   DataEncoding := some { NamespaceIndex := 1, Name := [88] } },
                 { NodeID := 102, AttributeID := 13, IndexRange := [50],
                   DataEncoding := some { NamespaceIndex := 0, Name := [] } }] }, 1) ∧
      ∃ m2 req2 r2, Client.Read ua13 mem3 0 = some (m2, req2) ∧ m2.reqs[req2]? = some r2 ∧
        r2.MaxAge = 7 ∧ r2.NodesToRead.length = 3 :=
  ⟨by decide,
    have ⟨m2, req2, r2, h1, h2, h3, _, h5, _⟩ :=
      Read_hands_on_defaulted_request ua13 mem3 0
        { MaxAge := 7, TimestampsToReturn := 2, NodesToRead := [0, 1, 2] }
        (by decide) (by decide)
    ⟨m2, req2, r2, h1, h2, h3, h5⟩⟩

/-! ## C20 -/

/-- C20: when `Client.Read` has built the request it hands on, every ReadRequest and every
ReadValueID that existed before the call, the input request and the ReadValueIDs it
references among them, has the field values it had before the call. -/
theorem Read_leaves_input_unchanged {Q : Type} (ua : UA Q) (m m2 : Mem Q) (req req2 : Nat)
    (hread : Client.Read ua m req = some (m2, req2)) :
    m2.reqs[req]? = m.reqs[req]? ∧ (∀ k, k < m.reqs.length → m2.reqs[k]? = m.reqs[k]?) ∧
      (∀ a, a < m.rvs.length → m2.rvs[a]? = m.rvs[a]?) := by
  unfold Client.Read at hread
  rcases hr : m.reqs[req]? with _ | r
  · rw [hr] at hread; cases hread
  · rw [hr] at hread
    dsimp only at hread
    rcases hl : Client.Read.loop ua r.NodesToRead m.rvs with _ | ⟨h, rvs⟩
    · rw [hl] at hread; cases hread
    · rw [hl] at hread
      dsimp only at hread
      cases hread
      have hp := loop_extends ua r.NodesToRead m.rvs h rvs hl
      have hk : ∀ k, k < m.reqs.length →
          (m.reqs ++ [({ MaxAge := r.MaxAge, TimestampsToReturn := r.TimestampsToReturn,
                         NodesToRead := rvs } : ReadRequest)])[k]? = m.reqs[k]? :=
        fun k hk => List.getElem?_append_left hk
      have hlt : req < m.reqs.length := by
        rcases Nat.lt_or_ge req m.reqs.length with h1 | h1
        · exact h1
        · rw [List.getElem?_eq_none h1] at hr; cases hr
      exact ⟨(hk req hlt).trans hr, hk, fun a ha => getElem?_of_extends m.rvs h a hp ha⟩

theorem Read_leaves_input_unchanged_witness :
    (mem3.reqs ++ [{ MaxAge := 7, TimestampsToReturn := 2, NodesToRead := [0, 3, 4] }])[0]?
        = mem3.reqs[0]? ∧
      ∀ a, a < mem3.rvs.length →
        (mem3.rvs ++
          [{ NodeID := 101, AttributeID := 13, IndexRange := [],
             DataEncoding := some { NamespaceIndex := 1, Name := [88] } },
           { NodeID := 102, AttributeID := 13, IndexRange := [50],
             DataEncoding := some { NamespaceIndex := 0, Name := [] } }])[a]?
          = mem3.rvs[a]? :=
  have h := Read_leaves_input_unchanged ua13 mem3
    { reqs := mem3.reqs ++
        [{ MaxAge := 7, TimestampsToReturn := 2, NodesToRead := [0, 3, 4] }],
      rvs := mem3.rvs ++
        [{ NodeID := 101, AttributeID := 13, IndexRange := [],
           DataEncoding := some { NamespaceIndex := 1, Name := [88] } },
         { NodeID := 102, AttributeID := 13, IndexRange := [50],
           DataEncoding := some { NamespaceIndex := 0, Name := [] } }] } 0 1 (by decide)
  ⟨h.1, h.2.2⟩

end Opcua

namespace Errors

/-! ## C21 -/

/-- The run of the test `TestErrors` (errors_test.go 15–69): the five messages are the
expected ones. -/
theorem TestErrors_passes :
    (NewErrDecodeFailure { TypeName := "[]string", Text := "[]" }
        "given bytes too short").Error
      = "failed to decode []string: given bytes too short" ∧
    (NewErrSerializeFailure { TypeName := "[]string", Text := "[]" }
        "given bytes too short").Error
      = "failed to serialize []string: given bytes too short" ∧
    (NewErrUnsupported { TypeName := "[]string", Text := "[]" } "not implemented").Error
      = "unsupported []string: not implemented" ∧
    (NewErrUnexpected (Any.ofString "xxx") "invalid type").Error
      = "xxx is unexpected: invalid type" ∧
    (NewErrNetworkNotAvailable { TypeName := "*net.TCPConn", Text := "" }
        "not established").Error
      = "network *net.TCPConn is not available: not established" := by
  decide

/-- C21: for every message `m`, every value `t` whose Go type name is `t.TypeName` and every
string `v`, the `Error()` strings are: "failed to decode " + name + ": " + m for
`ErrDecodeFailure`; "failed to serialize " + name + ": " + m for `ErrSerializeFailure`;
"unsupported " + name + ": " + m for `ErrUnsupported`; "network " + name +
" is not available: " + m for `ErrNetworkNotAvailable`; and v + " is unexpected: " + m for
`ErrUnexpected` with the string value `v`. -/
theorem Error_strings (t : Any) (m v : String) :
    (NewErrDecodeFailure t m).Error = "failed to decode " ++ t.TypeName ++ ": " ++ m ∧
    (NewErrSerializeFailure t m).Error = "failed to serialize " ++ t.TypeName ++ ": " ++ m ∧
    (NewErrUnsupported t m).Error = "unsupported " ++ t.TypeName ++ ": " ++ m ∧
    (NewErrNetworkNotAvailable t m).Error
      = "network " ++ t.TypeName ++ " is not available: " ++ m ∧
    (NewErrUnexpected (Any.ofString v) m).Error = v ++ " is unexpected: " ++ m := by
  have h1 : "failed to decode %T: %s".toList
      = "failed to decode ".toList ++ ('%' :: 'T' :: ": ".toList ++ ['%', 's']) := by decide
  have h2 : "failed to serialize %T: %s".toList
      = "failed to serialize ".toList ++ ('%' :: 'T' :: ": ".toList ++ ['%', 's']) := by
    decide
  have h3 : "unsupported %T: %s".toList
      = "unsupported ".toList ++ ('%' :: 'T' :: ": ".toList ++ ['%', 's']) := by decide
  have h4 : "network %T is not available: %s".toList
      = "network ".toList ++ ('%' :: 'T' :: " is not available: ".toList ++ ['%', 's']) := by
    decide
  have h5 : "%s is unexpected: %s".toList
      = '%' :: 's' :: " is unexpected: ".toList ++ ['%', 's'] := by decide
  refine ⟨?_, ?_, ?_, ?_, ?_⟩
  · apply String.ext
    simp only [ErrDecodeFailure.Error, NewErrDecodeFailure, Sprintf, String.data_append]
    rw [h1]
    simp [sprintf, Any.ofString]
  · apply String.ext
    simp only [ErrSerializeFailure.Error, NewErrSerializeFailure, Sprintf, String.data_append]
    rw [h2]
    simp [sprintf, Any.ofString]
  · apply String.ext
    simp only [ErrUnsupported.Error, NewErrUnsupported, Sprintf, String.data_append]
    rw [h3]
    simp [sprintf, Any.ofString]
  · apply String.ext
    simp only [ErrNetworkNotAvailable.Error, NewErrNetworkNotAvailable, Sprintf,
      String.data_append]
    rw [h4]
    simp [sprintf, Any.ofString]
  · apply String.ext
    simp only [ErrUnexpected.Error, NewErrUnexpected, Sprintf, String.data_append]
    rw [h5]
    simp [sprintf, Any.ofString]

end Errors
